import Mathlib

/-!
Shallow embedding of `src/fast-kmeans.ts` (the TypeScript `FastKMEANS` class,
the first document in the file; the second document is a line-for-line
JavaScript prototype variant of the same code).

Modelling conventions:
* JavaScript numbers are modelled as `ℚ`.  The only irrational operation in
  the source is the final `Math.sqrt` of `euclideanDistance`; the distance
  function is an injected parameter of the algorithm (`this.distance`), so the
  development is parametric in `dist : List ℚ → List ℚ → ℚ` and concrete
  evaluations use `euclideanDistanceSq` (the same sum of squared differences
  without the square root — a strictly monotone transform, so every comparison
  made by the algorithm is preserved).
* `Number.MAX_VALUE` is the exact rational `(2^53 - 1) * 2^971` (`maxValue`).
* `Math.round(Math.random() * maxId)` is modelled by an injected random source
  `rand : Nat → Nat` together with a call counter `rctr`; the sampled index is
  `rand rctr % (maxId + 1)`.
* `randomCentroid`'s rejection test `this.centroids.indexOf(centroid) >= 0`
  uses JavaScript reference equality.  A centroid is therefore modelled as
  either `Centroid.orig id` (the dataset array object at index `id`) or
  `Centroid.mean v` (a freshly allocated mean array, reference-equal to no
  dataset element).  The needle of `indexOf` is always an `orig`, and
  `orig i === orig j ↔ i = j` assuming the dataset rows are distinct objects.
* Unset (`undefined`) array slots of `lowerBounds` are `Option ℚ` with `none`;
  a `<` comparison against `undefined` is `false` (`ltOpt`).  `upperBounds`
  and `assignments` are always fully initialised before they are read.
* The two unbounded `while` loops of the source (the rejection sampling in
  `randomCentroid` and the main convergence loop of `run`) take fuel and
  return `none` when the fuel is exhausted: `∀ fuel, … = none` models
  non-termination.
* The model is used in the regime where every point has dimension ≤ `maxDim`
  (beyond that the source produces `NaN`s, which `ℚ` cannot represent).
-/

attribute [local semireducible] Rat.add Rat.sub Rat.mul Rat.inv Rat.ofScientific

namespace FastKMEANS

/-- Module constant of the source: `const maxDim = 10`. -/
def maxDim : Nat := 10

/-- Exact value of JavaScript `Number.MAX_VALUE`, i.e. (2^53 - 1) · 2^971,
spelled as a numeral so that concrete comparisons evaluate cheaply. -/
def maxValue : ℚ := 179769313486231570814527423731704356798070567525844996598917476803157260780028538760589558632766878171540458953514382464234321326889464182768467546703537516986049910576551282076245490090389328944075868508455133942304583236903222948165808559332123348274797826204144723168738177180919299881250404026184124858368

/-- Source `euclideanDistance` without the final `Math.sqrt`: the loop sums
`(p[i] - q[i])^2` for `i < min p.length q.length`. -/
def euclideanDistanceSq (p q : List ℚ) : ℚ :=
  (List.zipWith (fun a b => (a - b) * (a - b)) p q).foldl (· + ·) 0

/-- A centroid array object: either a reference to the dataset row `id`
(as stored by `randomCentroid`) or a freshly allocated mean vector. -/
inductive Centroid where
  | orig (id : Nat)
  | mean (v : List ℚ)
deriving DecidableEq

instance : Inhabited Centroid := ⟨Centroid.mean []⟩

/-- The numeric contents of a centroid array. -/
def Centroid.val (dataset : List (List ℚ)) : Centroid → List ℚ
  | Centroid.orig id => dataset.getD id []
  | Centroid.mean v => v

/-- The mutable fields of a `FastKMEANS` instance (`this.…`), plus the call
counter `rctr` of the injected random source. -/
structure State where
  k : Nat
  dataset : List (List ℚ)
  assignments : List Nat
  centroids : List Centroid
  upperBounds : List ℚ
  lowerBounds : List (Option ℚ)
  neighborClusters : List (List Nat)
  rctr : Nat
deriving DecidableEq

instance : Inhabited State := ⟨⟨0, [], [], [], [], [], [], 0⟩⟩

/-- `Set.add` of a JavaScript `Set` enumerated in insertion order. -/
def addUnique (l : List Nat) (x : Nat) : List Nat :=
  if l.contains x then l else l ++ [x]

/-- Inner loop of `updateNeighborClusters` for cluster `i`: walk the points
`j = 0, 1, …`; for a point assigned to `i`, read
`this.neighborClusters[j]` — indexed by the POINT index `j` — and abort the
whole rebuild (`return`) if that slot is `undefined`. -/
def gatherGo (ncs : List (List Nat)) (i : Nat) :
    List Nat → Nat → List Nat → Option (List Nat)
  | [], _, acc => some acc
  | a :: rest, j, acc =>
    if a = i then
      match ncs[j]? with
      | none => none
      | some ncp => gatherGo ncs i rest (j + 1) (ncp.foldl addUnique acc)
    else gatherGo ncs i rest (j + 1) acc

/-- Outer loop of `updateNeighborClusters` over the cluster ids `is`;
`none` models the early `return` that abandons the rebuild. -/
def buildNC (ncs : List (List Nat)) (assignments : List Nat) :
    List Nat → Option (List (List Nat))
  | [] => some []
  | i :: rest =>
    match gatherGo ncs i assignments 0 [] with
    | none => none
    | some s =>
      match buildNC ncs assignments rest with
      | none => none
      | some others => some (s.filter (· ≠ i) :: others)

/-- Source `updateNeighborClusters` (lines 188–213): on the early `return`
the state is left unchanged, otherwise `this.neighborClusters` is replaced
by the freshly built per-cluster table (`delete(i)` is the filter). -/
def updateNeighborClusters (st : State) : State :=
  match buildNC st.neighborClusters st.assignments (List.range st.k) with
  | none => st
  | some ncs => { st with neighborClusters := ncs }

/-- Accumulate a point into the running mean vector: the source adds
`this.dataset[j][dim]` into `mean[dim]` for `dim < dataset[j].length`,
leaving the remaining slots of the 10-entry `mean` untouched. -/
def addVec (acc p : List ℚ) : List ℚ :=
  List.zipWith (· + ·) acc p ++ acc.drop p.length

/-- Summation loop of the centroid recomputation: fold the points assigned to
cluster `cid` into the zero-initialised `maxDim`-entry accumulator, counting
them. -/
def sumCountGo (cid : Nat) :
    List (List ℚ) → List Nat → List ℚ → Nat → List ℚ × Nat
  | [], _, acc, cnt => (acc, cnt)
  | _ :: ps, [], acc, cnt => sumCountGo cid ps [] acc cnt
  | p :: ps, a :: as, acc, cnt =>
    if a = cid then sumCountGo cid ps as (addVec acc p) (cnt + 1)
    else sumCountGo cid ps as acc cnt

/-- Sum vector and member count of cluster `cid` (source lines 97–115). -/
def sumCount (dataset : List (List ℚ)) (assignments : List Nat) (cid : Nat) :
    List ℚ × Nat :=
  sumCountGo cid dataset assignments (List.replicate maxDim 0) 0

/-- The recomputed centroid of cluster `cid`: every one of the `maxDim`
accumulator entries is divided by the member count (source lines 119–121).
Only evaluated by the algorithm when the count is positive. -/
def clusterMean (dataset : List (List ℚ)) (assignments : List Nat) (cid : Nat) :
    List ℚ :=
  let sc := sumCount dataset assignments cid
  sc.1.map (· / (sc.2 : ℚ))

/-- The points currently assigned to cluster `cid`, in dataset order
(used to state what `sumCount` computes). -/
def assignedPoints (cid : Nat) : List (List ℚ) → List Nat → List (List ℚ)
  | [], _ => []
  | _ :: _, [] => []
  | p :: ps, a :: as =>
    if a = cid then p :: assignedPoints cid ps as else assignedPoints cid ps as

/-- Source `randomCentroid` (lines 170–181): rejection-sample a dataset index
until the sampled row is not already referenced by `this.centroids`; returns
the accepted centroid and the advanced random counter, or `none` when the
sampling never terminates within the given fuel. -/
def randomCentroid (rand : Nat → Nat) (dataset : List (List ℚ))
    (cents : List Centroid) : Nat → Nat → Option (Centroid × Nat)
  | _, 0 => none
  | rctr, fuel + 1 =>
    let maxId := dataset.length - 1
    let id := rand rctr % (maxId + 1)
    let c := Centroid.orig id
    if c ∈ cents then randomCentroid rand dataset cents (rctr + 1) fuel
    else some (c, rctr + 1)

/-- Centroid-recompute pass of the main loop (source lines 95–133), walking
the cluster ids `js` in order: a non-empty cluster's centroid is replaced by
its mean when `arraysEqual` fails (marking a pending change), an empty
cluster is reseeded by `randomCentroid` (unconditionally marking a change). -/
def centroidPass (rand : Nat → Nat) (dataset : List (List ℚ))
    (assignments : List Nat) (rcFuel : Nat) :
    List Nat → List Centroid → Nat → Bool → Option (List Centroid × Nat × Bool)
  | [], cents, rctr, change => some (cents, rctr, change)
  | cid :: rest, cents, rctr, change =>
    if 0 < (sumCount dataset assignments cid).2 then
      let μ := clusterMean dataset assignments cid
      if μ = (cents.getD cid (Centroid.mean [])).val dataset then
        centroidPass rand dataset assignments rcFuel rest cents rctr change
      else
        centroidPass rand dataset assignments rcFuel rest
          (cents.set cid (Centroid.mean μ)) rctr true
    else
      match randomCentroid rand dataset cents rctr rcFuel with
      | none => none
      | some (c, r') =>
        centroidPass rand dataset assignments rcFuel rest
          (cents.set cid c) r' true

/-- Loop of the source `argmin` (lines 265–279): `min` starts at
`Number.MAX_VALUE`, `arg` at `0`, updated on strict decrease. -/
def argminGo (dist : List ℚ → List ℚ → ℚ) (point : List ℚ)
    (set : List (List ℚ)) : List Nat → ℚ → Nat → Nat
  | [], _, arg => arg
  | i :: is, mn, arg =>
    let d := dist point (set.getD i [])
    if d < mn then argminGo dist point set is d i
    else argminGo dist point set is mn arg

/-- Source `argmin`: the index of the first-encountered nearest element. -/
def argmin (dist : List ℚ → List ℚ → ℚ) (point : List ℚ)
    (set : List (List ℚ)) : Nat :=
  argminGo dist point set (List.range set.length) maxValue 0

/-- Secondary scan of the initial-bound loop (source lines 70–78): the
nearest centroid among indices different from `closest`, tracking
`(minDistance, secondClosestCentroid)`. -/
def secondGo (dist : List ℚ → List ℚ → ℚ) (point : List ℚ)
    (centVals : List (List ℚ)) (closest : Nat) :
    List Nat → ℚ → Option Nat → ℚ × Option Nat
  | [], mn, sc => (mn, sc)
  | cid :: cids, mn, sc =>
    if cid = closest then secondGo dist point centVals closest cids mn sc
    else
      let d := dist point (centVals.getD cid [])
      if d < mn then secondGo dist point centVals closest cids d (some cid)
      else secondGo dist point centVals closest cids mn sc

/-- Initial bound computation for one point (source lines 63–86).  Note two
source peculiarities reproduced here: `upperBounds[i]` receives `minDistance`
(the distance to the nearest centroid EXCLUDING the first choice), and the
guard `if (secondClosestCentroid)` is JavaScript truthiness, so index `0`
(and `undefined`) leave `lowerBounds[i]` unset. -/
def initPointBounds (dist : List ℚ → List ℚ → ℚ) (k : Nat)
    (centVals : List (List ℚ)) (p : List ℚ) : Nat × ℚ × Option ℚ :=
  let closest := argmin dist p centVals
  let ms := secondGo dist p centVals closest (List.range k) maxValue none
  (closest, ms.1,
    match ms.2 with
    | some j => if j = 0 then none else some (dist p (centVals.getD j []))
    | none => none)

/-- Initial `assignments`, `upperBounds`, `lowerBounds` (the per-point loop
iterations are independent, so the three result arrays are three maps). -/
def initBounds (dist : List ℚ → List ℚ → ℚ) (dataset : List (List ℚ))
    (k : Nat) (centVals : List (List ℚ)) :
    List Nat × List ℚ × List (Option ℚ) :=
  (dataset.map (fun p => (initPointBounds dist k centVals p).1),
   dataset.map (fun p => (initPointBounds dist k centVals p).2.1),
   dataset.map (fun p => (initPointBounds dist k centVals p).2.2))

/-- Exhaustive nearest-centroid assignment of every point against the given
centroid positions (the source's own `argmin`, first-index tie-breaking). -/
def exhaustiveAssignments (dist : List ℚ → List ℚ → ℚ)
    (dataset : List (List ℚ)) (centVals : List (List ℚ)) : List Nat :=
  dataset.map (fun p => argmin dist p centVals)

/-- JavaScript `x < y` where `y` may be `undefined` (always false then). -/
def ltOpt (x : ℚ) : Option ℚ → Bool
  | none => false
  | some y => decide (x < y)

/-- Neighbor scan of the bound-update loop (source lines 146–157): the first
neighbor id `m ≠ ai` whose centroid distance beats `oldL` wins (`break`). -/
def scanNeighbors (dist : List ℚ → List ℚ → ℚ) (dataset : List (List ℚ))
    (cents : List Centroid) (p : List ℚ) (ai : Nat) (oldL : Option ℚ) :
    List Nat → Option (Nat × ℚ)
  | [] => none
  | m :: rest =>
    if m = ai then scanNeighbors dist dataset cents p ai oldL rest
    else
      let dm := dist p ((cents.getD m (Centroid.mean [])).val dataset)
      if ltOpt dm oldL then some (m, dm)
      else scanNeighbors dist dataset cents p ai oldL rest

/-- One iteration of the bound-update loop for point `i` (source lines
136–158), acting on `(assignments, upperBounds, lowerBounds, change)`. -/
def boundStep (dist : List ℚ → List ℚ → ℚ) (dataset : List (List ℚ))
    (cents : List Centroid) (ncs : List (List Nat))
    (a : List Nat) (ub : List ℚ) (lb : List (Option ℚ)) (ch : Bool) (i : Nat) :
    List Nat × List ℚ × List (Option ℚ) × Bool :=
  let p := dataset.getD i []
  let ai := a.getD i 0
  let oldU := ub.getD i 0
  let oldL := lb.getD i none
  let dNew := dist p ((cents.getD ai (Centroid.mean [])).val dataset)
  if dNew < oldU then
    let ub2 := ub.set i dNew
    match ncs[ai]? with
    | none => (a, ub2, lb, ch)
    | some l =>
      match scanNeighbors dist dataset cents p ai oldL l with
      | none => (a, ub2, lb, ch)
      | some (m, dm) => (a.set i m, ub2, lb.set i (some dm), true)
  else (a, ub, lb, ch)

/-- Bound-update pass over the point indices `js` in order. -/
def boundPassAll (dist : List ℚ → List ℚ → ℚ) (dataset : List (List ℚ))
    (cents : List Centroid) (ncs : List (List Nat)) :
    List Nat → List Nat → List ℚ → List (Option ℚ) → Bool →
    List Nat × List ℚ × List (Option ℚ) × Bool
  | [], a, ub, lb, ch => (a, ub, lb, ch)
  | i :: is, a, ub, lb, ch =>
    let s := boundStep dist dataset cents ncs a ub lb ch i
    boundPassAll dist dataset cents ncs is s.1 s.2.1 s.2.2.1 s.2.2.2

/-- One body of the `while (change)` loop of `run` (source lines 90–160):
rebuild the neighbor graph, recompute/reseed centroids, then update bounds
and reassign.  `change` starts `false` and is only ever set. -/
def iterate (dist : List ℚ → List ℚ → ℚ) (rand : Nat → Nat) (rcFuel : Nat)
    (st : State) : Option (State × Bool) :=
  let st1 := updateNeighborClusters st
  match centroidPass rand st1.dataset st1.assignments rcFuel
      (List.range st1.k) st1.centroids st1.rctr false with
  | none => none
  | some (cents, rctr, ch) =>
    let r := boundPassAll dist st1.dataset cents st1.neighborClusters
      (List.range st1.dataset.length) st1.assignments st1.upperBounds
      st1.lowerBounds ch
    some ({ st1 with
              centroids := cents,
              rctr := rctr,
              assignments := r.1,
              upperBounds := r.2.1,
              lowerBounds := r.2.2.1 }, r.2.2.2)

/-- The `while (change)` loop, fuelled: `none` when it fails to converge
within `fuel` iterations (or a reseed's rejection sampling diverges). -/
def runLoop (dist : List ℚ → List ℚ → ℚ) (rand : Nat → Nat) (rcFuel : Nat) :
    Nat → State → Option State
  | 0, _ => none
  | fuel + 1, st =>
    match iterate dist rand rcFuel st with
    | none => none
    | some (st', ch) =>
      if ch then runLoop dist rand rcFuel fuel st' else some st'

/-- Seeding loop of `run` (source lines 58–60): draw `n` centroids in order,
each sampled against the centroids chosen so far. -/
def initCentroids (rand : Nat → Nat) (dataset : List (List ℚ)) (rcFuel : Nat) :
    Nat → List Centroid → Nat → Option (List Centroid × Nat)
  | 0, cents, rctr => some (cents, rctr)
  | n + 1, cents, rctr =>
    match randomCentroid rand dataset cents rctr rcFuel with
    | none => none
    | some (c, r') => initCentroids rand dataset rcFuel n (cents ++ [c]) r'

/-- Everything `run` does before entering the main loop: `this.k = k || 3`
(the constructor), `init()`, centroid seeding and the initial bounds. -/
def initPhase (dist : List ℚ → List ℚ → ℚ) (rand : Nat → Nat)
    (dataset : List (List ℚ)) (kIn rcFuel : Nat) : Option State :=
  let k := if kIn = 0 then 3 else kIn
  match initCentroids rand dataset rcFuel k [] 0 with
  | none => none
  | some (cents, rctr) =>
    let b := initBounds dist dataset k (cents.map (Centroid.val dataset))
    some { k := k, dataset := dataset, assignments := b.1, centroids := cents,
           upperBounds := b.2.1, lowerBounds := b.2.2,
           neighborClusters := [], rctr := rctr }

/-- `run` up to (but excluding) the final `getClusters` call. -/
def runToState (dist : List ℚ → List ℚ → ℚ) (rand : Nat → Nat)
    (dataset : List (List ℚ)) (kIn fuel rcFuel : Nat) : Option State :=
  match initPhase dist rand dataset kIn rcFuel with
  | none => none
  | some st0 => runLoop dist rand rcFuel fuel st0

/-- `clusters[centroidId].push(pointId)` with lazy `[]` initialisation;
a hole of the JavaScript array is `none`.  `List.set` is a no-op out of
range (the source would instead grow the array, but every assignment
produced by the algorithm is `< k`). -/
def pushAt (cl : List (Option (List Nat))) (c j : Nat) :
    List (Option (List Nat)) :=
  cl.set c (some ((cl.getD c none).getD [] ++ [j]))

/-- Loop of `getClusters` over the points, threading the point index. -/
def getClustersGo (cl : List (Option (List Nat))) :
    List Nat → Nat → List (Option (List Nat))
  | [], _ => cl
  | a :: rest, j => getClustersGo (pushAt cl a j) rest (j + 1)

/-- Source `getClusters` (lines 220–236): `new Array(this.k)` filled by
literal cluster id; unoccupied ids remain holes. -/
def getClusters (k : Nat) (assignments : List Nat) :
    List (Option (List Nat)) :=
  getClustersGo (List.replicate k none) assignments 0

/-- Source `run` (lines 53–163). -/
def run (dist : List ℚ → List ℚ → ℚ) (rand : Nat → Nat)
    (dataset : List (List ℚ)) (kIn fuel rcFuel : Nat) :
    Option (List (Option (List Nat))) :=
  (runToState dist rand dataset kIn fuel rcFuel).map
    (fun st => getClusters st.k st.assignments)

/-- The (absolute) indices of the points assigned to cluster `c`, starting
the count at `j` — the occupancy list `getClusters` groups by. -/
def occIdx (c : Nat) : List Nat → Nat → List Nat
  | [], _ => []
  | a :: rest, j =>
    if a = c then j :: occIdx c rest (j + 1) else occIdx c rest (j + 1)

/-- The exact current distance from point `i` to its assigned centroid,
as the bound-update loop computes it (`distToClosestCentroid`). -/
def dcur (dist : List ℚ → List ℚ → ℚ) (dataset : List (List ℚ))
    (cents : List Centroid) (a : List Nat) (i : Nat) : ℚ :=
  dist (dataset.getD i []) ((cents.getD (a.getD i 0) (Centroid.mean [])).val dataset)

/-! ### Helper lemmas -/

theorem getD_set_ne {α : Type} (l : List α) {i j : Nat} (v d : α) (h : i ≠ j) :
    (l.set i v).getD j d = l.getD j d := by
  simp [List.getD_eq_getElem?_getD, List.getElem?_set_ne h]

theorem getD_set_self {α : Type} (l : List α) {i : Nat} (v d : α)
    (h : i < l.length) :
    (l.set i v).getD i d = v := by
  simp [List.getD_eq_getElem?_getD, List.getElem?_set_self h]

/-- With no recorded per-point neighbor data at all, the inner loop of
`updateNeighborClusters` aborts as soon as it meets a point of cluster `i`. -/
theorem gatherGo_nil_none {i : Nat} :
    ∀ (l : List Nat) (j : Nat) (acc : List Nat), i ∈ l →
      gatherGo [] i l j acc = none := by
  intro l
  induction l with
  | nil => intro j acc h; cases h
  | cons a rest ih =>
    intro j acc h
    by_cases hai : a = i
    · simp [gatherGo, hai]
    · have : i ∈ rest := by
        cases h with
        | head => exact absurd rfl hai
        | tail _ h' => exact h'
      simp only [gatherGo, hai, if_neg]
      exact ih (j + 1) acc this

theorem buildNC_none {ncs : List (List Nat)} {assignments : List Nat} :
    ∀ (is : List Nat), (∃ i ∈ is, gatherGo ncs i assignments 0 [] = none) →
      buildNC ncs assignments is = none := by
  intro is
  induction is with
  | nil => rintro ⟨i, hi, _⟩; cases hi
  | cons i0 rest ih =>
    rintro ⟨i, hi, hg⟩
    rw [buildNC]
    rcases List.mem_cons.mp hi with h | h
    · rw [h] at hg; rw [hg]
    · cases hg0 : gatherGo ncs i0 assignments 0 [] with
      | none => rfl
      | some s => rw [ih ⟨i, h, hg⟩]

/-- On a state whose `neighborClusters` table is empty while some point is
assigned to a cluster `< k`, the rebuild early-returns and the state is
unchanged. -/
theorem updateNeighborClusters_stuck {st : State} {a : Nat}
    (hnc : st.neighborClusters = []) (ha : a ∈ st.assignments)
    (hak : a < st.k) :
    updateNeighborClusters st = st := by
  have : buildNC st.neighborClusters st.assignments (List.range st.k) = none := by
    apply buildNC_none
    refine ⟨a, List.mem_range.mpr hak, ?_⟩
    rw [hnc]
    exact gatherGo_nil_none st.assignments 0 [] ha
  rw [updateNeighborClusters, this]

theorem argminGo_lt {dist : List ℚ → List ℚ → ℚ} {point : List ℚ}
    {set : List (List ℚ)} {n : Nat} :
    ∀ (is : List Nat) (mn : ℚ) (arg : Nat), (∀ i ∈ is, i < n) → arg < n →
      argminGo dist point set is mn arg < n := by
  intro is
  induction is with
  | nil => intro mn arg _ h; exact h
  | cons i rest ih =>
    intro mn arg hmem harg
    rw [argminGo]
    by_cases h : dist point (set.getD i []) < mn
    · simp only [h, if_pos]
      exact ih _ _ (fun j hj => hmem j (List.mem_cons_of_mem _ hj))
        (hmem i (List.mem_cons_self i rest))
    · simp only [h, if_neg, not_false_iff]
      exact ih _ _ (fun j hj => hmem j (List.mem_cons_of_mem _ hj)) harg

theorem argmin_lt {dist : List ℚ → List ℚ → ℚ} {point : List ℚ}
    {set : List (List ℚ)} (h : 0 < set.length) :
    argmin dist point set < set.length := by
  apply argminGo_lt
  · intro i hi; exact List.mem_range.mp hi
  · exact h

theorem argmin_singleton {dist : List ℚ → List ℚ → ℚ} {point : List ℚ}
    {v : List ℚ} : argmin dist point [v] = 0 := by
  show argminGo dist point [v] [0] maxValue 0 = 0
  rw [argminGo]
  by_cases h : dist point ([v].getD 0 []) < maxValue <;> simp [h, argminGo]

/-- With an empty neighbor table the bound step can only shrink the upper
bound of its own point; assignments, lower bounds and the change flag pass
through untouched. -/
theorem boundStep_nil {dist : List ℚ → List ℚ → ℚ} {dataset : List (List ℚ)}
    {cents : List Centroid} {a : List Nat} {ub : List ℚ}
    {lb : List (Option ℚ)} {ch : Bool} {i : Nat} :
    boundStep dist dataset cents [] a ub lb ch i =
      (a,
       (if dcur dist dataset cents a i < ub.getD i 0
        then ub.set i (dcur dist dataset cents a i) else ub),
       lb, ch) := by
  by_cases h : dcur dist dataset cents a i < ub.getD i 0 <;>
    simp only [boundStep, dcur] at h ⊢
  · rw [if_pos h, if_pos h]
    rfl
  · rw [if_neg h, if_neg h]

theorem boundPassAll_nil_proj {dist : List ℚ → List ℚ → ℚ}
    {dataset : List (List ℚ)} {cents : List Centroid} :
    ∀ (js a : List Nat) (ub : List ℚ) (lb : List (Option ℚ)) (ch : Bool),
      (boundPassAll dist dataset cents [] js a ub lb ch).1 = a ∧
      (boundPassAll dist dataset cents [] js a ub lb ch).2.2.1 = lb ∧
      (boundPassAll dist dataset cents [] js a ub lb ch).2.2.2 = ch := by
  intro js
  induction js with
  | nil => intro a ub lb ch; exact ⟨rfl, rfl, rfl⟩
  | cons j rest ih =>
    intro a ub lb ch
    rw [boundPassAll, boundStep_nil]
    exact ih a _ lb ch

theorem boundPassAll_nil_length {dist : List ℚ → List ℚ → ℚ}
    {dataset : List (List ℚ)} {cents : List Centroid} :
    ∀ (js a : List Nat) (ub : List ℚ) (lb : List (Option ℚ)) (ch : Bool),
      (boundPassAll dist dataset cents [] js a ub lb ch).2.1.length =
        ub.length := by
  intro js
  induction js with
  | nil => intro a ub lb ch; rfl
  | cons j rest ih =>
    intro a ub lb ch
    rw [boundPassAll, boundStep_nil]
    rw [ih]
    split
    · rw [List.length_set]
    · rfl

theorem boundPassAll_nil_not_mem {dist : List ℚ → List ℚ → ℚ}
    {dataset : List (List ℚ)} {cents : List Centroid} {i : Nat} :
    ∀ (js a : List Nat) (ub : List ℚ) (lb : List (Option ℚ)) (ch : Bool),
      i ∉ js →
      (boundPassAll dist dataset cents [] js a ub lb ch).2.1.getD i 0 =
        ub.getD i 0 := by
  intro js
  induction js with
  | nil => intro a ub lb ch _; rfl
  | cons j rest ih =>
    intro a ub lb ch hni
    rw [boundPassAll, boundStep_nil]
    have hij : i ∉ rest := fun h => hni (List.mem_cons_of_mem _ h)
    rw [ih a _ lb ch hij]
    split
    · exact getD_set_ne ub _ _ (fun hji => hni (hji ▸ List.mem_cons_self j rest))
    · rfl

/-- Characterisation of the bound-update pass on a state with empty
neighbor table: every upper bound becomes the minimum of its previous value
and the exact current distance. -/
theorem boundPassAll_nil_mem {dist : List ℚ → List ℚ → ℚ}
    {dataset : List (List ℚ)} {cents : List Centroid} {i : Nat} :
    ∀ (js a : List Nat) (ub : List ℚ) (lb : List (Option ℚ)) (ch : Bool),
      js.Nodup → (∀ j ∈ js, j < ub.length) → i ∈ js →
      (boundPassAll dist dataset cents [] js a ub lb ch).2.1.getD i 0 =
        (if dcur dist dataset cents a i < ub.getD i 0
         then dcur dist dataset cents a i else ub.getD i 0) := by
  intro js
  induction js with
  | nil => intro a ub lb ch _ _ h; cases h
  | cons j rest ih =>
    intro a ub lb ch hnd hlt hmem
    rw [boundPassAll, boundStep_nil]
    have hndr := (List.nodup_cons.mp hnd).2
    have hjr := (List.nodup_cons.mp hnd).1
    rcases List.mem_cons.mp hmem with hij | hir
    · subst hij
      have hnotr : i ∉ rest := hjr
      rw [boundPassAll_nil_not_mem rest a _ lb ch hnotr]
      split
      · exact getD_set_self ub _ _ (hlt i (List.mem_cons_self i rest))
      · rfl
    · have hij : j ≠ i := fun hji => hjr (hji ▸ hir)
      have hlt' : ∀ m ∈ rest, m <
          ((if dcur dist dataset cents a j < ub.getD j 0
            then ub.set j (dcur dist dataset cents a j) else ub)).length := by
        intro m hm
        have hm' := hlt m (List.mem_cons_of_mem _ hm)
        split
        · rw [List.length_set]; exact hm'
        · exact hm'
      rw [ih a _ lb ch hndr hlt' hir]
      have heq : ((if dcur dist dataset cents a j < ub.getD j 0
            then ub.set j (dcur dist dataset cents a j) else ub)).getD i 0 =
          ub.getD i 0 := by
        split
        · exact getD_set_ne ub _ _ hij
        · rfl
      rw [heq]

theorem randomCentroid_some {rand : Nat → Nat} {dataset : List (List ℚ)}
    {cents : List Centroid} :
    ∀ (fuel rctr : Nat) (c : Centroid) (r' : Nat),
      randomCentroid rand dataset cents rctr fuel = some (c, r') →
      c ∉ cents ∧ ∃ id, id < dataset.length - 1 + 1 ∧ c = Centroid.orig id := by
  intro fuel
  induction fuel with
  | zero => intro rctr c r' h; cases h
  | succ n ih =>
    intro rctr c r' h
    rw [randomCentroid] at h
    by_cases hm : Centroid.orig (rand rctr % (dataset.length - 1 + 1)) ∈ cents
    · rw [if_pos hm] at h
      exact ih _ _ _ h
    · rw [if_neg hm] at h
      cases h
      exact ⟨hm, rand rctr % (dataset.length - 1 + 1),
        Nat.mod_lt _ (Nat.succ_pos _), rfl⟩

/-- When every dataset row is already referenced by a centroid, the rejection
sampling of `randomCentroid` never terminates. -/
theorem randomCentroid_none_of_full {rand : Nat → Nat} {dataset : List (List ℚ)}
    {cents : List Centroid} (hlen : 0 < dataset.length)
    (hall : ∀ id < dataset.length, Centroid.orig id ∈ cents) :
    ∀ (fuel rctr : Nat), randomCentroid rand dataset cents rctr fuel = none := by
  intro fuel
  induction fuel with
  | zero => intro rctr; rfl
  | succ n ih =>
    intro rctr
    rw [randomCentroid]
    have hsz : dataset.length - 1 + 1 = dataset.length :=
      Nat.succ_pred_eq_of_pos hlen
    have hid : rand rctr % (dataset.length - 1 + 1) < dataset.length := by
      rw [hsz]; exact Nat.mod_lt _ hlen
    rw [if_pos (hall _ hid)]
    exact ih _

/-- On the empty dataset every sample is the (undefined) row `0`, so once it
has been drawn once, `randomCentroid` never terminates. -/
theorem randomCentroid_nil_none {rand : Nat → Nat} {cents : List Centroid}
    (h : Centroid.orig 0 ∈ cents) :
    ∀ (fuel rctr : Nat), randomCentroid rand [] cents rctr fuel = none := by
  intro fuel
  induction fuel with
  | zero => intro rctr; rfl
  | succ n ih =>
    intro rctr
    rw [randomCentroid]
    have hz : rand rctr % (([] : List (List ℚ)).length - 1 + 1) = 0 :=
      Nat.mod_one _
    rw [hz, if_pos h]
    exact ih _

theorem centroidPass_len {rand : Nat → Nat} {dataset : List (List ℚ)}
    {assignments : List Nat} {rcFuel : Nat} :
    ∀ (js : List Nat) (cents : List Centroid) (rctr : Nat) (ch : Bool)
      (out : List Centroid × Nat × Bool),
      centroidPass rand dataset assignments rcFuel js cents rctr ch = some out →
      out.1.length = cents.length := by
  intro js
  induction js with
  | nil => intro cents rctr ch out h; cases h; rfl
  | cons cid rest ih =>
    intro cents rctr ch out h
    rw [centroidPass] at h
    by_cases hc : 0 < (sumCount dataset assignments cid).2
    · rw [if_pos hc] at h
      by_cases he : clusterMean dataset assignments cid =
          (cents.getD cid (Centroid.mean [])).val dataset
      · rw [if_pos he] at h
        exact ih _ _ _ _ h
      · rw [if_neg he] at h
        have := ih _ _ _ _ h
        rwa [List.length_set] at this
    · rw [if_neg hc] at h
      cases hrc : randomCentroid rand dataset cents rctr rcFuel with
      | none => rw [hrc] at h; cases h
      | some p =>
        rw [hrc] at h
        have := ih _ _ _ _ h
        rwa [List.length_set] at this

theorem centroidPass_not_mem {rand : Nat → Nat} {dataset : List (List ℚ)}
    {assignments : List Nat} {rcFuel : Nat} {i : Nat} :
    ∀ (js : List Nat) (cents : List Centroid) (rctr : Nat) (ch : Bool)
      (out : List Centroid × Nat × Bool), i ∉ js →
      centroidPass rand dataset assignments rcFuel js cents rctr ch = some out →
      out.1.getD i (Centroid.mean []) = cents.getD i (Centroid.mean []) := by
  intro js
  induction js with
  | nil => intro cents rctr ch out _ h; cases h; rfl
  | cons cid rest ih =>
    intro cents rctr ch out hni h
    have hcid : cid ≠ i := fun hx => hni (hx ▸ List.mem_cons_self cid rest)
    have hrest : i ∉ rest := fun hx => hni (List.mem_cons_of_mem _ hx)
    rw [centroidPass] at h
    by_cases hc : 0 < (sumCount dataset assignments cid).2
    · rw [if_pos hc] at h
      by_cases he : clusterMean dataset assignments cid =
          (cents.getD cid (Centroid.mean [])).val dataset
      · rw [if_pos he] at h
        exact ih _ _ _ _ hrest h
      · rw [if_neg he] at h
        rw [ih _ _ _ _ hrest h]
        exact getD_set_ne cents _ _ hcid
    · rw [if_neg hc] at h
      cases hrc : randomCentroid rand dataset cents rctr rcFuel with
      | none => rw [hrc] at h; cases h
      | some p =>
        rw [hrc] at h
        rw [ih _ _ _ _ hrest h]
        exact getD_set_ne cents _ _ hcid

theorem centroidPass_change_true {rand : Nat → Nat} {dataset : List (List ℚ)}
    {assignments : List Nat} {rcFuel : Nat} :
    ∀ (js : List Nat) (cents : List Centroid) (rctr : Nat)
      (out : List Centroid × Nat × Bool),
      centroidPass rand dataset assignments rcFuel js cents rctr true = some out →
      out.2.2 = true := by
  intro js
  induction js with
  | nil => intro cents rctr out h; cases h; rfl
  | cons cid rest ih =>
    intro cents rctr out h
    rw [centroidPass] at h
    by_cases hc : 0 < (sumCount dataset assignments cid).2
    · rw [if_pos hc] at h
      by_cases he : clusterMean dataset assignments cid =
          (cents.getD cid (Centroid.mean [])).val dataset
      · rw [if_pos he] at h; exact ih _ _ _ h
      · rw [if_neg he] at h; exact ih _ _ _ h
    · rw [if_neg hc] at h
      cases hrc : randomCentroid rand dataset cents rctr rcFuel with
      | none => rw [hrc] at h; cases h
      | some p => rw [hrc] at h; exact ih _ _ _ h

/-- If any cluster id in the pass has no assigned points, the pass either
dies in the reseed's rejection sampling or reports a pending change. -/
theorem centroidPass_empty_cluster {rand : Nat → Nat} {dataset : List (List ℚ)}
    {assignments : List Nat} {rcFuel : Nat} :
    ∀ (js : List Nat) (cents : List Centroid) (rctr : Nat) (ch : Bool)
      (out : List Centroid × Nat × Bool),
      (∃ cid ∈ js, (sumCount dataset assignments cid).2 = 0) →
      centroidPass rand dataset assignments rcFuel js cents rctr ch = some out →
      out.2.2 = true := by
  intro js
  induction js with
  | nil => rintro cents rctr ch out ⟨cid, hmem, _⟩ h; cases hmem
  | cons j rest ih =>
    rintro cents rctr ch out ⟨cid, hmem, hcnt⟩ h
    rw [centroidPass] at h
    by_cases hc : 0 < (sumCount dataset assignments j).2
    · have hcr : cid ∈ rest := by
        rcases List.mem_cons.mp hmem with hx | hx
        · rw [hx] at hcnt; rw [hcnt] at hc; cases hc
        · exact hx
      rw [if_pos hc] at h
      by_cases he : clusterMean dataset assignments j =
          (cents.getD j (Centroid.mean [])).val dataset
      · rw [if_pos he] at h; exact ih _ _ _ _ ⟨cid, hcr, hcnt⟩ h
      · rw [if_neg he] at h; exact centroidPass_change_true _ _ _ _ h
    · rw [if_neg hc] at h
      cases hrc : randomCentroid rand dataset cents rctr rcFuel with
      | none => rw [hrc] at h; cases h
      | some p => rw [hrc] at h; exact centroidPass_change_true _ _ _ _ h

/-- A non-empty cluster whose id occurs in the pass ends the pass with a
centroid whose contents are exactly the recomputed `clusterMean` (either the
old centroid already had those contents, or it was overwritten by them). -/
theorem centroidPass_occupied {rand : Nat → Nat} {dataset : List (List ℚ)}
    {assignments : List Nat} {rcFuel : Nat} :
    ∀ (js : List Nat) (cents : List Centroid) (rctr : Nat) (ch : Bool)
      (out : List Centroid × Nat × Bool), js.Nodup →
      (∀ j ∈ js, j < cents.length) →
      centroidPass rand dataset assignments rcFuel js cents rctr ch = some out →
      ∀ cid ∈ js, 0 < (sumCount dataset assignments cid).2 →
        (out.1.getD cid (Centroid.mean [])).val dataset =
          clusterMean dataset assignments cid := by
  intro js
  induction js with
  | nil => intro cents rctr ch out _ _ _ cid hmem; cases hmem
  | cons j rest ih =>
    intro cents rctr ch out hnd hlt h cid hmem hcnt
    have hndr := (List.nodup_cons.mp hnd).2
    have hjr := (List.nodup_cons.mp hnd).1
    rw [centroidPass] at h
    rcases List.mem_cons.mp hmem with hcj | hcr
    · subst hcj
      rw [if_pos hcnt] at h
      by_cases he : clusterMean dataset assignments cid =
          (cents.getD cid (Centroid.mean [])).val dataset
      · rw [if_pos he] at h
        rw [centroidPass_not_mem _ _ _ _ _ hjr h]
        exact he.symm
      · rw [if_neg he] at h
        rw [centroidPass_not_mem _ _ _ _ _ hjr h]
        rw [getD_set_self cents _ _ (hlt cid (List.mem_cons_self cid rest))]
        rfl
    · have hji : j ≠ cid := fun hx => hjr (hx ▸ hcr)
      by_cases hc : 0 < (sumCount dataset assignments j).2
      · rw [if_pos hc] at h
        by_cases he : clusterMean dataset assignments j =
            (cents.getD j (Centroid.mean [])).val dataset
        · rw [if_pos he] at h
          exact ih _ _ _ _ hndr (fun m hm => hlt m (List.mem_cons_of_mem _ hm))
            h cid hcr hcnt
        · rw [if_neg he] at h
          have hlt' : ∀ m ∈ rest, m < (cents.set j
              (Centroid.mean (clusterMean dataset assignments j))).length := by
            intro m hm
            rw [List.length_set]
            exact hlt m (List.mem_cons_of_mem _ hm)
          exact ih _ _ _ _ hndr hlt' h cid hcr hcnt
      · rw [if_neg hc] at h
        cases hrc : randomCentroid rand dataset cents rctr rcFuel with
        | none => rw [hrc] at h; cases h
        | some p =>
          rw [hrc] at h
          have hlt' : ∀ m ∈ rest, m < (cents.set j p.1).length := by
            intro m hm
            rw [List.length_set]
            exact hlt m (List.mem_cons_of_mem _ hm)
          exact ih _ _ _ _ hndr hlt' h cid hcr hcnt

/-- On any reachable state of a non-degenerate run (empty neighbor table,
at least one point assigned to a live cluster) an iteration of the main loop
leaves the assignments and the (empty) neighbor table unchanged. -/
theorem iterate_inv {dist : List ℚ → List ℚ → ℚ} {rand : Nat → Nat}
    {rcFuel : Nat} {st : State} {a : Nat}
    (hnc : st.neighborClusters = []) (ha : a ∈ st.assignments)
    (hak : a < st.k) :
    ∀ pr, iterate dist rand rcFuel st = some pr →
      pr.1.assignments = st.assignments ∧ pr.1.neighborClusters = [] ∧
      pr.1.k = st.k ∧ pr.1.dataset = st.dataset := by
  intro pr h
  have hupd : updateNeighborClusters st = st :=
    updateNeighborClusters_stuck hnc ha hak
  rw [iterate, hupd] at h
  cases hcp : centroidPass rand st.dataset st.assignments rcFuel
      (List.range st.k) st.centroids st.rctr false with
  | none => rw [hcp] at h; cases h
  | some q =>
    obtain ⟨cents, rctr, ch⟩ := q
    rw [hcp] at h
    cases h
    refine ⟨?_, ?_, rfl, rfl⟩
    · show (boundPassAll dist st.dataset cents st.neighborClusters
        (List.range st.dataset.length) st.assignments st.upperBounds
        st.lowerBounds ch).1 = st.assignments
      rw [hnc]
      exact (boundPassAll_nil_proj _ _ _ _ _).1
    · exact hnc

/-- Along any terminating suffix of the main loop started in a reachable
state, the assignments are frozen and the neighbor table stays empty. -/
theorem runLoop_inv {dist : List ℚ → List ℚ → ℚ} {rand : Nat → Nat}
    {rcFuel : Nat} :
    ∀ (fuel : Nat) (st stF : State) (a : Nat), st.neighborClusters = [] →
      a ∈ st.assignments → a < st.k →
      runLoop dist rand rcFuel fuel st = some stF →
      stF.assignments = st.assignments ∧ stF.neighborClusters = [] := by
  intro fuel
  induction fuel with
  | zero => intro st stF a _ _ _ h; cases h
  | succ n ih =>
    intro st stF a hnc ha hak h
    rw [runLoop] at h
    cases hit : iterate dist rand rcFuel st with
    | none => rw [hit] at h; cases h
    | some pr =>
      obtain ⟨st', ch⟩ := pr
      rw [hit] at h
      obtain ⟨h1, h2, h3, _⟩ := iterate_inv hnc ha hak _ hit
      cases ch with
      | false =>
        have : st' = stF := by
          simpa using h
        rw [← this]
        exact ⟨h1, h2⟩
      | true =>
        have h' : runLoop dist rand rcFuel n st' = some stF := by
          simpa using h
        have ha' : a ∈ st'.assignments := by rw [h1]; exact ha
        have hak' : a < st'.k := by rw [h3]; exact hak
        obtain ⟨g1, g2⟩ := ih st' stF a h2 ha' hak' h'
        exact ⟨by rw [g1, h1], g2⟩

theorem initCentroids_length {rand : Nat → Nat} {dataset : List (List ℚ)}
    {rcFuel : Nat} :
    ∀ (n : Nat) (cents : List Centroid) (rctr : Nat)
      (out : List Centroid × Nat),
      initCentroids rand dataset rcFuel n cents rctr = some out →
      out.1.length = cents.length + n := by
  intro n
  induction n with
  | zero => intro cents rctr out h; cases h; rfl
  | succ m ih =>
    intro cents rctr out h
    rw [initCentroids] at h
    cases hrc : randomCentroid rand dataset cents rctr rcFuel with
    | none => rw [hrc] at h; cases h
    | some p =>
      rw [hrc] at h
      have := ih _ _ _ h
      simp only [List.length_append, List.length_cons, List.length_nil] at this
      omega

/-- Shape of the state produced by the initialisation phase. -/
theorem initPhase_some {dist : List ℚ → List ℚ → ℚ} {rand : Nat → Nat}
    {dataset : List (List ℚ)} {kIn rcFuel : Nat} :
    ∀ st0, initPhase dist rand dataset kIn rcFuel = some st0 →
      st0.neighborClusters = [] ∧ st0.dataset = dataset ∧
      st0.k = (if kIn = 0 then 3 else kIn) ∧ 0 < st0.k ∧
      st0.centroids.length = st0.k ∧
      st0.assignments = exhaustiveAssignments dist dataset
        (st0.centroids.map (Centroid.val dataset)) := by
  intro st0 h
  rw [initPhase] at h
  cases hic : initCentroids rand dataset rcFuel
      (if kIn = 0 then 3 else kIn) [] 0 with
  | none => rw [hic] at h; cases h
  | some p =>
    obtain ⟨cents, rctr⟩ := p
    rw [hic] at h
    cases h
    have hklen := initCentroids_length _ _ _ _ hic
    refine ⟨rfl, rfl, rfl, ?_, ?_, ?_⟩
    · show 0 < (if kIn = 0 then 3 else kIn)
      split <;> omega
    · simpa using hklen
    · rfl

theorem initPhase_assignment_lt {dist : List ℚ → List ℚ → ℚ}
    {rand : Nat → Nat} {dataset : List (List ℚ)} {kIn rcFuel : Nat}
    {st0 : State} (h : initPhase dist rand dataset kIn rcFuel = some st0) :
    ∀ a ∈ st0.assignments, a < st0.k := by
  obtain ⟨_, _, _, hk, hlen, hassign⟩ := initPhase_some st0 h
  intro a ha
  rw [hassign] at ha
  rw [exhaustiveAssignments] at ha
  obtain ⟨p, _, hp⟩ := List.mem_map.mp ha
  have hcv : (st0.centroids.map (Centroid.val dataset)).length = st0.k := by
    rw [List.length_map]; exact hlen
  have := @argmin_lt dist p (st0.centroids.map (Centroid.val dataset))
    (by rw [hcv]; exact hk)
  rw [hcv] at this
  rw [← hp]
  exact this

/-- On a reachable state with an empty cluster, any successful iteration of
the main loop necessarily reports a pending change (the reseed branch sets
`change = true` unconditionally). -/
theorem iterate_change_of_empty {dist : List ℚ → List ℚ → ℚ}
    {rand : Nat → Nat} {rcFuel : Nat} {st : State} {a cid : Nat}
    (hnc : st.neighborClusters = []) (ha : a ∈ st.assignments)
    (hak : a < st.k) (hcid : cid < st.k)
    (hempty : (sumCount st.dataset st.assignments cid).2 = 0) :
    ∀ pr, iterate dist rand rcFuel st = some pr → pr.2 = true := by
  intro pr h
  have hupd : updateNeighborClusters st = st :=
    updateNeighborClusters_stuck hnc ha hak
  rw [iterate, hupd] at h
  cases hcp : centroidPass rand st.dataset st.assignments rcFuel
      (List.range st.k) st.centroids st.rctr false with
  | none => rw [hcp] at h; cases h
  | some q =>
    obtain ⟨cents, rctr, ch⟩ := q
    rw [hcp] at h
    cases h
    have hch : ch = true :=
      centroidPass_empty_cluster _ _ _ _ _
        ⟨cid, List.mem_range.mpr hcid, hempty⟩ hcp
    show (boundPassAll dist st.dataset cents st.neighborClusters
      (List.range st.dataset.length) st.assignments st.upperBounds
      st.lowerBounds ch).2.2.2 = true
    rw [hnc, (boundPassAll_nil_proj _ _ _ _ _).2.2, hch]

/-- On the C6 scenario ([[0],[0],[1]], k = 2, every point in cluster 0),
the main loop never converges: cluster 1 stays empty forever, so every
iteration reseeds it and marks a change. -/
theorem runLoop_c6_none {dist : List ℚ → List ℚ → ℚ} {rand : Nat → Nat}
    {rcFuel : Nat} :
    ∀ (fuel : Nat) (st : State), st.dataset = [[(0:ℚ)],[0],[1]] → st.k = 2 →
      st.assignments = [0,0,0] → st.neighborClusters = [] →
      runLoop dist rand rcFuel fuel st = none := by
  intro fuel
  induction fuel with
  | zero => intro st _ _ _ _; rfl
  | succ n ih =>
    intro st hds hk ha hnc
    have hmem : (0 : Nat) ∈ st.assignments := by
      rw [ha]; exact List.mem_cons_self 0 _
    have hak : (0 : Nat) < st.k := by rw [hk]; omega
    have hcid : (1 : Nat) < st.k := by rw [hk]; omega
    have hempty : (sumCount st.dataset st.assignments 1).2 = 0 := by
      rw [hds, ha]; decide
    rw [runLoop]
    cases hit : iterate dist rand rcFuel st with
    | none => rfl
    | some pr =>
      obtain ⟨st', ch⟩ := pr
      have hch : ch = true := by
        have := iterate_change_of_empty hnc hmem hak hcid hempty _ hit
        simpa using this
      subst hch
      obtain ⟨h1, h2, h3, h4⟩ := iterate_inv hnc hmem hak _ hit
      show runLoop dist rand rcFuel n st' = none
      exact ih st' (by rw [h4, hds]) (by rw [h3, hk])
        (by rw [h1, ha]) h2

/-- With a single centroid, exhaustive assignment sends every point to 0. -/
theorem exhaustiveAssignments_singleton {dist : List ℚ → List ℚ → ℚ}
    {dataset : List (List ℚ)} {v : List ℚ} :
    exhaustiveAssignments dist dataset [v] =
      List.replicate dataset.length 0 := by
  rw [exhaustiveAssignments]
  have h1 : dataset.map (fun p => argmin dist p [v]) =
      dataset.map (fun _ => 0) :=
    List.map_congr_left (fun p _ => argmin_singleton)
  rw [h1, List.map_const']

theorem sumCountGo_count_all :
    ∀ (ds : List (List ℚ)) (acc : List ℚ) (cnt : Nat),
      (sumCountGo 0 ds (List.replicate ds.length 0) acc cnt).2 =
        cnt + ds.length := by
  intro ds
  induction ds with
  | nil => intro acc cnt; rfl
  | cons p ps ih =>
    intro acc cnt
    show (sumCountGo 0 ps (List.replicate ps.length 0) (addVec acc p)
      (cnt + 1)).2 = cnt + (ps.length + 1)
    rw [ih]
    omega

theorem sumCount_count_all {ds : List (List ℚ)} :
    (sumCount ds (List.replicate ds.length 0) 0).2 = ds.length := by
  rw [sumCount, sumCountGo_count_all]
  omega

/-- In the `k = 1` regime (single cluster holding every point) one loop
iteration always completes. -/
theorem iterate_k1_isSome {dist : List ℚ → List ℚ → ℚ} {rand : Nat → Nat}
    {rcFuel : Nat} {st : State} {c : Centroid}
    (hk : st.k = 1) (hnc : st.neighborClusters = [])
    (ha : st.assignments = List.replicate st.dataset.length 0)
    (hn : 0 < st.dataset.length) (hc : st.centroids = [c]) :
    (iterate dist rand rcFuel st).isSome = true := by
  have hmem : (0 : Nat) ∈ st.assignments := by
    rw [ha]
    exact List.mem_replicate.mpr ⟨by omega, rfl⟩
  have hupd : updateNeighborClusters st = st :=
    updateNeighborClusters_stuck hnc hmem (by omega)
  have hcnt : 0 < (sumCount st.dataset st.assignments 0).2 := by
    rw [ha, sumCount_count_all]
    exact hn
  have hrange : List.range st.k = [0] := by rw [hk]; rfl
  rw [iterate, hupd, hrange, hc, centroidPass, if_pos hcnt]
  by_cases he : clusterMean st.dataset st.assignments 0 =
      ([c].getD 0 (Centroid.mean [])).val st.dataset
  · rw [if_pos he, centroidPass]
    rfl
  · rw [if_neg he, centroidPass]
    rfl

/-- Shape of one loop iteration in the `k = 1` regime: the iteration either
leaves the centroid alone (no change) or overwrites it with the recomputed
mean (change); assignments and the empty neighbor table never move. -/
theorem iterate_k1_spec {dist : List ℚ → List ℚ → ℚ} {rand : Nat → Nat}
    {rcFuel : Nat} {st : State} {c : Centroid}
    (hk : st.k = 1) (hnc : st.neighborClusters = [])
    (ha : st.assignments = List.replicate st.dataset.length 0)
    (hn : 0 < st.dataset.length) (hc : st.centroids = [c]) :
    ∀ st' ch, iterate dist rand rcFuel st = some (st', ch) →
      ch = !(decide (clusterMean st.dataset st.assignments 0 =
          c.val st.dataset)) ∧
      st'.centroids =
        (if clusterMean st.dataset st.assignments 0 = c.val st.dataset
         then [c]
         else [Centroid.mean (clusterMean st.dataset st.assignments 0)]) ∧
      st'.assignments = st.assignments ∧ st'.neighborClusters = [] ∧
      st'.k = st.k ∧ st'.dataset = st.dataset := by
  intro st' ch h
  have hmem : (0 : Nat) ∈ st.assignments := by
    rw [ha]
    exact List.mem_replicate.mpr ⟨by omega, rfl⟩
  have hupd : updateNeighborClusters st = st :=
    updateNeighborClusters_stuck hnc hmem (by omega)
  have hcnt : 0 < (sumCount st.dataset st.assignments 0).2 := by
    rw [ha, sumCount_count_all]
    exact hn
  have hrange : List.range st.k = [0] := by rw [hk]; rfl
  rw [iterate, hupd, hrange, hc, centroidPass, if_pos hcnt] at h
  by_cases he : clusterMean st.dataset st.assignments 0 = c.val st.dataset
  · have he' : clusterMean st.dataset st.assignments 0 =
        ([c].getD 0 (Centroid.mean [])).val st.dataset := he
    rw [if_pos he', centroidPass, hnc] at h
    cases h
    refine ⟨?_, ?_, ?_, rfl, rfl, rfl⟩
    · rw [(boundPassAll_nil_proj _ _ _ _ _).2.2]
      simp [he]
    · show ([c] : List Centroid) = _
      rw [if_pos he]
    · exact (boundPassAll_nil_proj _ _ _ _ _).1
  · have he' : ¬ (clusterMean st.dataset st.assignments 0 =
        ([c].getD 0 (Centroid.mean [])).val st.dataset) := he
    rw [if_neg he', centroidPass, hnc] at h
    cases h
    refine ⟨?_, ?_, ?_, rfl, rfl, rfl⟩
    · rw [(boundPassAll_nil_proj _ _ _ _ _).2.2]
      simp [he]
    · show ([c].set 0 (Centroid.mean (clusterMean st.dataset
          st.assignments 0)) : List Centroid) = _
      rw [if_neg he]
      rfl
    · exact (boundPassAll_nil_proj _ _ _ _ _).1

theorem addVec_nil_right (acc : List ℚ) : addVec acc [] = acc := by
  cases acc <;> simp [addVec]

theorem addVec_nil_left (p : List ℚ) : addVec [] p = [] := by
  cases p <;> simp [addVec]

theorem addVec_cons_cons (a b : ℚ) (as bs : List ℚ) :
    addVec (a :: as) (b :: bs) = (a + b) :: addVec as bs := by
  simp [addVec]

theorem addVec_length :
    ∀ (acc p : List ℚ), p.length ≤ acc.length →
      (addVec acc p).length = acc.length := by
  intro acc
  induction acc with
  | nil =>
    intro p hp
    rw [List.length_nil, Nat.le_zero] at hp
    rw [List.length_eq_zero.mp hp, addVec_nil_right]
  | cons a as ih =>
    intro p hp
    cases p with
    | nil => rw [addVec_nil_right]
    | cons b bs =>
      rw [addVec_cons_cons, List.length_cons, List.length_cons]
      rw [ih bs (by simpa using hp)]

theorem addVec_getD :
    ∀ (acc p : List ℚ) (t : Nat), p.length ≤ acc.length → t < acc.length →
      (addVec acc p).getD t 0 =
        (if t < p.length then acc.getD t 0 + p.getD t 0 else acc.getD t 0) := by
  intro acc
  induction acc with
  | nil => intro p t _ ht; cases ht
  | cons a as ih =>
    intro p t hp ht
    cases p with
    | nil =>
      rw [addVec_nil_right]
      simp
    | cons b bs =>
      rw [addVec_cons_cons]
      cases t with
      | zero => simp
      | succ u =>
        rw [List.getD_cons_succ, List.getD_cons_succ, List.getD_cons_succ]
        rw [ih bs u (by simpa using hp) (by simpa using ht)]
        simp [Nat.succ_lt_succ_iff]

theorem foldl_addVec_length :
    ∀ (l : List (List ℚ)) (acc : List ℚ), (∀ p ∈ l, p.length ≤ acc.length) →
      (l.foldl addVec acc).length = acc.length := by
  intro l
  induction l with
  | nil => intro acc _; rfl
  | cons p ps ih =>
    intro acc hlen
    rw [List.foldl_cons]
    have hp := hlen p (List.mem_cons_self p ps)
    have h1 : (addVec acc p).length = acc.length := addVec_length acc p hp
    rw [ih (addVec acc p)
      (fun q hq => h1 ▸ hlen q (List.mem_cons_of_mem _ hq)), h1]

theorem foldl_addVec_getD {d : Nat} :
    ∀ (l : List (List ℚ)) (acc : List ℚ) (t : Nat), (∀ p ∈ l, p.length = d) →
      d ≤ acc.length → t < acc.length →
      (l.foldl addVec acc).getD t 0 =
        acc.getD t 0 +
          (if t < d then (l.map (fun p => p.getD t 0)).sum else 0) := by
  intro l
  induction l with
  | nil =>
    intro acc t _ _ _
    simp
  | cons p ps ih =>
    intro acc t hdim hd ht
    rw [List.foldl_cons]
    have hp : p.length = d := hdim p (List.mem_cons_self p ps)
    have hpl : p.length ≤ acc.length := hp ▸ hd
    have h1 : (addVec acc p).length = acc.length := addVec_length acc p hpl
    rw [ih (addVec acc p) t (fun q hq => hdim q (List.mem_cons_of_mem _ hq))
      (h1 ▸ hd) (h1 ▸ ht)]
    rw [addVec_getD acc p t hpl ht, hp]
    by_cases htd : t < d
    · rw [if_pos htd, if_pos htd, if_pos htd]
      rw [List.map_cons, List.sum_cons]
      ring
    · rw [if_neg htd, if_neg htd, if_neg htd]

theorem assignedPoints_nil (cid : Nat) :
    ∀ (ds : List (List ℚ)), assignedPoints cid ds [] = [] := by
  intro ds
  cases ds <;> rfl

theorem sumCountGo_eq {cid : Nat} :
    ∀ (ds : List (List ℚ)) (as : List Nat) (acc : List ℚ) (cnt : Nat),
      sumCountGo cid ds as acc cnt =
        ((assignedPoints cid ds as).foldl addVec acc,
         cnt + (assignedPoints cid ds as).length) := by
  intro ds
  induction ds with
  | nil => intro as acc cnt; rfl
  | cons p ps ih =>
    intro as acc cnt
    cases as with
    | nil =>
      show sumCountGo cid ps [] acc cnt = _
      rw [ih [] acc cnt, assignedPoints_nil, assignedPoints_nil]
    | cons a as' =>
      rw [sumCountGo, assignedPoints]
      by_cases ha : a = cid
      · rw [if_pos ha, if_pos ha, ih as' (addVec acc p) (cnt + 1),
          List.foldl_cons, List.length_cons]
        simp only [Prod.mk.injEq]
        exact ⟨trivial, by omega⟩
      · rw [if_neg ha, if_neg ha, ih as' acc cnt]

theorem assignedPoints_subset {cid : Nat} :
    ∀ (ds : List (List ℚ)) (as : List Nat) (q : List ℚ),
      q ∈ assignedPoints cid ds as → q ∈ ds := by
  intro ds
  induction ds with
  | nil => intro as q h; cases h
  | cons p ps ih =>
    intro as q h
    cases as with
    | nil => rw [assignedPoints_nil] at h; cases h
    | cons a as' =>
      by_cases ha : a = cid
      · rw [assignedPoints, if_pos ha] at h
        rcases List.mem_cons.mp h with h | h
        · rw [h]; exact List.mem_cons_self p ps
        · exact List.mem_cons_of_mem _ (ih as' q h)
      · rw [assignedPoints, if_neg ha] at h
        exact List.mem_cons_of_mem _ (ih as' q h)

theorem getD_map_div (s : List ℚ) (c : ℚ) (t : Nat) (ht : t < s.length) :
    (s.map (· / c)).getD t 0 = s.getD t 0 / c := by
  rw [List.getD_eq_getElem?_getD, List.getD_eq_getElem?_getD,
    List.getElem?_map]
  rw [List.getElem?_eq_getElem ht]
  rfl

/-- What the recomputed centroid of an occupied cluster contains: a
`maxDim`-entry vector whose first `d` slots hold the coordinate-wise mean of
the cluster's points and whose remaining slots are `0`. -/
theorem clusterMean_spec {dataset : List (List ℚ)} {assignments : List Nat}
    {cid d : Nat} (hdim : ∀ p ∈ dataset, p.length = d) (hd : d ≤ maxDim) :
    (clusterMean dataset assignments cid).length = maxDim ∧
    (∀ t, t < maxDim →
      (clusterMean dataset assignments cid).getD t 0 =
        (if t < d then
          ((assignedPoints cid dataset assignments).map
            (fun p => p.getD t 0)).sum /
          (((assignedPoints cid dataset assignments).length : Nat) : ℚ)
         else 0)) := by
  have hrep : (List.replicate maxDim (0 : ℚ)).length = maxDim :=
    List.length_replicate _ _
  have hsub : ∀ q ∈ assignedPoints cid dataset assignments,
      q.length = d := fun q hq =>
    hdim q (assignedPoints_subset dataset assignments q hq)
  have hsc : sumCount dataset assignments cid =
      ((assignedPoints cid dataset assignments).foldl addVec
        (List.replicate maxDim 0),
       (assignedPoints cid dataset assignments).length) := by
    rw [sumCount, sumCountGo_eq]
    refine congrArg _ ?_
    omega
  have hslen : ((assignedPoints cid dataset assignments).foldl addVec
      (List.replicate maxDim 0)).length = maxDim := by
    rw [foldl_addVec_length _ _ (fun q hq => by rw [hsub q hq, hrep]; exact hd),
      hrep]
  constructor
  · rw [clusterMean, hsc]
    simpa using hslen
  · intro t ht
    rw [clusterMean, hsc]
    have hts : t < ((assignedPoints cid dataset assignments).foldl addVec
        (List.replicate maxDim 0)).length := by rw [hslen]; exact ht
    rw [getD_map_div _ _ t hts]
    rw [foldl_addVec_getD _ _ t hsub (by rw [hrep]; exact hd)
      (by rw [hrep]; exact ht)]
    have hz : (List.replicate maxDim (0 : ℚ)).getD t 0 = 0 := by
      rw [List.getD_eq_getElem?_getD, List.getElem?_replicate]
      split <;> rfl
    rw [hz]
    by_cases htd : t < d
    · rw [if_pos htd, if_pos htd, zero_add]
    · rw [if_neg htd, if_neg htd, zero_add, zero_div]

theorem getD_replicate {α : Type} (n c : Nat) (x : α) :
    (List.replicate n x).getD c x = x := by
  rw [List.getD_eq_getElem?_getD, List.getElem?_replicate]
  split <;> rfl

theorem getClustersGo_length :
    ∀ (as : List Nat) (cl : List (Option (List Nat))) (j : Nat),
      (getClustersGo cl as j).length = cl.length := by
  intro as
  induction as with
  | nil => intro cl j; rfl
  | cons a rest ih =>
    intro cl j
    show (getClustersGo (pushAt cl a j) rest (j + 1)).length = cl.length
    rw [ih, pushAt, List.length_set]

/-- Where each point index lands in the `getClusters` table: entry `c` of the
table collects, in ascending order, the indices of the points assigned to the
literal cluster id `c`; ids never assigned stay holes. -/
theorem getClustersGo_getD :
    ∀ (as : List Nat) (cl : List (Option (List Nat))) (j c : Nat),
      c < cl.length →
      (getClustersGo cl as j).getD c none =
        (if occIdx c as j = [] then cl.getD c none
         else some ((cl.getD c none).getD [] ++ occIdx c as j)) := by
  intro as
  induction as with
  | nil =>
    intro cl j c _
    rw [getClustersGo, occIdx, if_pos rfl]
  | cons a rest ih =>
    intro cl j c hc
    show (getClustersGo (pushAt cl a j) rest (j + 1)).getD c none = _
    rw [occIdx]
    by_cases hac : a = c
    · subst hac
      have hset : (pushAt cl a j).getD a none =
          some ((cl.getD a none).getD [] ++ [j]) :=
        getD_set_self cl _ _ hc
      have hlen : a < (pushAt cl a j).length := by
        rw [pushAt, List.length_set]; exact hc
      rw [ih (pushAt cl a j) (j + 1) a hlen, hset]
      rw [if_pos rfl]
      by_cases hocc : occIdx a rest (j + 1) = []
      · rw [if_pos hocc, if_neg (by simp), hocc]
      · rw [if_neg hocc, if_neg (by simp)]
        rw [Option.getD_some, List.append_assoc]
        rfl
    · have hset : (pushAt cl a j).getD c none = cl.getD c none :=
        getD_set_ne cl _ _ hac
      have hlen : c < (pushAt cl a j).length := by
        rw [pushAt, List.length_set]; exact hc
      rw [ih (pushAt cl a j) (j + 1) c hlen, hset, if_neg hac]

/-- On every run that gets through initialisation and converges, the final
assignments are the initial nearest-seed assignments and the neighbor table
is still empty. -/
theorem run_frozen {dist : List ℚ → List ℚ → ℚ} {rand : Nat → Nat}
    {dataset : List (List ℚ)} {kIn fuel rcFuel : Nat} {st0 stF : State}
    (hne : dataset ≠ [])
    (h0 : initPhase dist rand dataset kIn rcFuel = some st0)
    (hF : runLoop dist rand rcFuel fuel st0 = some stF) :
    stF.assignments = st0.assignments ∧ stF.neighborClusters = [] ∧
    st0.assignments = exhaustiveAssignments dist dataset
      (st0.centroids.map (Centroid.val dataset)) := by
  obtain ⟨hnc0, hds0, hk0, hkpos, hclen, hassign⟩ := initPhase_some st0 h0
  have hne' : st0.assignments ≠ [] := by
    rw [hassign, exhaustiveAssignments]
    intro hmap
    exact hne (List.map_eq_nil_iff.mp hmap)
  obtain ⟨a, ha⟩ := List.exists_mem_of_ne_nil _ hne'
  have hak : a < st0.k := initPhase_assignment_lt h0 a ha
  obtain ⟨g1, g2⟩ := runLoop_inv fuel st0 stF a hnc0 ha hak hF
  exact ⟨g1, g2, hassign⟩

theorem runLoop_step {dist : List ℚ → List ℚ → ℚ} {rand : Nat → Nat}
    {rcFuel : Nat} (fuel : Nat) (st : State) :
    runLoop dist rand rcFuel (fuel + 1) st =
      (match iterate dist rand rcFuel st with
       | none => none
       | some (st', ch) =>
         if ch then runLoop dist rand rcFuel fuel st' else some st') := rfl

end FastKMEANS

open FastKMEANS

/-! ### Claims -/

/-- C1: the spec's neighbor-graph contract says that each per-iteration
rebuild sets `NeighborClusters[c]`, for every cluster `c`, to the union of
the per-point neighbor sets of the points of `c` minus `c` itself.  The code
cannot do this: `updateNeighborClusters` reads `this.neighborClusters[j]` at
a POINT index `j` (per-point neighbor data that is never recorded anywhere),
finds `undefined` and returns early, leaving every cluster's neighbor set
unset.  Here, on the freshly initialised state for dataset [[0],[5]], k = 2
(both clusters occupied), the rebuild leaves the state untouched and the
neighbor table empty. -/
theorem c1_neighbor_rebuild_aborts :
    updateNeighborClusters
        ((initPhase euclideanDistanceSq (fun t => t) [[(0:ℚ)],[5]] 2 4).getD
          default) =
      (initPhase euclideanDistanceSq (fun t => t) [[(0:ℚ)],[5]] 2 4).getD
        default ∧
    ((initPhase euclideanDistanceSq (fun t => t) [[(0:ℚ)],[5]] 2 4).getD
        default).assignments = [0, 1] ∧
    ((initPhase euclideanDistanceSq (fun t => t) [[(0:ℚ)],[5]] 2 4).getD
        default).neighborClusters = [] := by
  decide

/-- C2: on every dataset with at least one point, `this.neighborClusters`
stays empty for the whole run (the rebuild early-returns every iteration),
the reassignment scan never fires, and whenever `run`'s loop converges the
final assignment of every point equals its initial assignment to the
nearest seed centroid (the code's own `argmin` over the seed centroids). -/
theorem c2_assignments_frozen (dist : List ℚ → List ℚ → ℚ) (rand : Nat → Nat)
    (dataset : List (List ℚ)) (kIn fuel rcFuel : Nat)
    (hne : dataset ≠ [])
    (hinit : (initPhase dist rand dataset kIn rcFuel).isSome = true)
    (hrun : (runLoop dist rand rcFuel fuel
        ((initPhase dist rand dataset kIn rcFuel).getD default)).isSome =
      true) :
    ((runLoop dist rand rcFuel fuel
        ((initPhase dist rand dataset kIn rcFuel).getD
          default)).getD default).assignments =
      ((initPhase dist rand dataset kIn rcFuel).getD default).assignments ∧
    ((runLoop dist rand rcFuel fuel
        ((initPhase dist rand dataset kIn rcFuel).getD
          default)).getD default).neighborClusters = [] ∧
    ((initPhase dist rand dataset kIn rcFuel).getD default).assignments =
      exhaustiveAssignments dist dataset
        (((initPhase dist rand dataset kIn rcFuel).getD
          default).centroids.map (Centroid.val dataset)) := by
  cases h0 : initPhase dist rand dataset kIn rcFuel with
  | none => rw [h0] at hinit; simp at hinit
  | some st0 =>
    rw [h0] at hrun
    simp only [Option.getD_some] at hrun ⊢
    cases hF : runLoop dist rand rcFuel fuel st0 with
    | none => rw [hF] at hrun; simp at hrun
    | some stF =>
      simp only [Option.getD_some]
      exact run_frozen hne h0 hF

/-- C2 witness: a concrete two-point run where the hypotheses hold. -/
theorem c2_assignments_frozen_witness :
    (([[(0:ℚ)],[1]] : List (List ℚ)) ≠ []) ∧
    ((initPhase euclideanDistanceSq (fun t => t) [[(0:ℚ)],[1]] 2 4).isSome =
      true) ∧
    ((runLoop euclideanDistanceSq (fun t => t) 4 5
        ((initPhase euclideanDistanceSq (fun t => t) [[(0:ℚ)],[1]] 2
          4).getD default)).isSome = true) ∧
    (((runLoop euclideanDistanceSq (fun t => t) 4 5
        ((initPhase euclideanDistanceSq (fun t => t) [[(0:ℚ)],[1]] 2 4).getD
          default)).getD default).assignments =
      ((initPhase euclideanDistanceSq (fun t => t) [[(0:ℚ)],[1]] 2 4).getD
        default).assignments ∧
    ((runLoop euclideanDistanceSq (fun t => t) 4 5
        ((initPhase euclideanDistanceSq (fun t => t) [[(0:ℚ)],[1]] 2 4).getD
          default)).getD default).neighborClusters = [] ∧
    ((initPhase euclideanDistanceSq (fun t => t) [[(0:ℚ)],[1]] 2 4).getD
        default).assignments =
      exhaustiveAssignments euclideanDistanceSq [[(0:ℚ)],[1]]
        (((initPhase euclideanDistanceSq (fun t => t) [[(0:ℚ)],[1]] 2
          4).getD default).centroids.map
          (Centroid.val [[(0:ℚ)],[1]]))) :=
  ⟨by decide, by decide, by decide,
    c2_assignments_frozen euclideanDistanceSq (fun t => t) [[(0:ℚ)],[1]]
      2 5 4 (by decide) (by decide) (by decide)⟩

/-- C3 counterexample: on [[0],[1],[-50]] with k = 2 and seeds at indices
0 and 1, the run converges but point 0 stays assigned to cluster 0 whose
final centroid (mean -25) is NOT its nearest final centroid (cluster 1's
mean 1 is) — the exhaustive re-run disagrees with the output. -/
theorem c3_counterexample :
    ((runToState euclideanDistanceSq (fun t => t) [[(0:ℚ)],[1],[-50]] 2 4
        4).isSome = true) ∧
    ((runToState euclideanDistanceSq (fun t => t) [[(0:ℚ)],[1],[-50]] 2 4
        4).getD default).assignments ≠
      exhaustiveAssignments euclideanDistanceSq [[(0:ℚ)],[1],[-50]]
        (((runToState euclideanDistanceSq (fun t => t) [[(0:ℚ)],[1],[-50]]
          2 4 4).getD default).centroids.map
          (Centroid.val [[(0:ℚ)],[1],[-50]])) := by
  decide

/-- C3 amended: the final assignment matches exhaustive nearest-centroid
search against the SEED centroids (it is frozen at the initial assignment),
not against the final centroid positions. -/
theorem c3_final_assignment_matches_seeds (dist : List ℚ → List ℚ → ℚ)
    (rand : Nat → Nat) (dataset : List (List ℚ)) (kIn fuel rcFuel : Nat)
    (hne : dataset ≠ [])
    (hinit : (initPhase dist rand dataset kIn rcFuel).isSome = true)
    (hrun : (runLoop dist rand rcFuel fuel
        ((initPhase dist rand dataset kIn rcFuel).getD default)).isSome =
      true) :
    ((runLoop dist rand rcFuel fuel
        ((initPhase dist rand dataset kIn rcFuel).getD
          default)).getD default).assignments =
      exhaustiveAssignments dist dataset
        (((initPhase dist rand dataset kIn rcFuel).getD
          default).centroids.map (Centroid.val dataset)) := by
  cases h0 : initPhase dist rand dataset kIn rcFuel with
  | none => rw [h0] at hinit; simp at hinit
  | some st0 =>
    rw [h0] at hrun
    simp only [Option.getD_some] at hrun ⊢
    cases hF : runLoop dist rand rcFuel fuel st0 with
    | none => rw [hF] at hrun; simp at hrun
    | some stF =>
      simp only [Option.getD_some]
      obtain ⟨g1, _, g3⟩ := run_frozen hne h0 hF
      rw [g1, g3]

/-- C3 amended witness: the concrete run of the counterexample satisfies the
amended statement. -/
theorem c3_final_assignment_matches_seeds_witness :
    (([[(0:ℚ)],[1],[-50]] : List (List ℚ)) ≠ []) ∧
    ((initPhase euclideanDistanceSq (fun t => t) [[(0:ℚ)],[1],[-50]] 2
        4).isSome = true) ∧
    ((runLoop euclideanDistanceSq (fun t => t) 4 4
        ((initPhase euclideanDistanceSq (fun t => t) [[(0:ℚ)],[1],[-50]] 2
          4).getD default)).isSome = true) ∧
    ((runLoop euclideanDistanceSq (fun t => t) 4 4
        ((initPhase euclideanDistanceSq (fun t => t) [[(0:ℚ)],[1],[-50]] 2
          4).getD default)).getD default).assignments =
      exhaustiveAssignments euclideanDistanceSq [[(0:ℚ)],[1],[-50]]
        (((initPhase euclideanDistanceSq (fun t => t) [[(0:ℚ)],[1],[-50]] 2
          4).getD default).centroids.map
          (Centroid.val [[(0:ℚ)],[1],[-50]])) :=
  ⟨by decide, by decide, by decide,
    c3_final_assignment_matches_seeds euclideanDistanceSq (fun t => t)
      [[(0:ℚ)],[1],[-50]] 2 4 4 (by decide) (by decide) (by decide)⟩

/-- C4: the initial bound computation picks the right assignment but writes
the WRONG upper bound.  On [[0],[3]] with k = 2 and seeds 0, 1: point 0 is
assigned to centroid 0 at distance 0, yet `upperBounds[0]` receives 9 — the
distance to the nearest centroid EXCLUDING the first choice (`minDistance`
of the secondary scan) — and `lowerBounds[1]` is left unset because the
runner-up index 0 fails the JavaScript truthiness guard
`if (secondClosestCentroid)`. -/
theorem c4_initial_upper_bound_wrong :
    ((initPhase euclideanDistanceSq (fun t => t) [[(0:ℚ)],[3]] 2 4).getD
        default).assignments = [0, 1] ∧
    ((initPhase euclideanDistanceSq (fun t => t) [[(0:ℚ)],[3]] 2 4).getD
        default).upperBounds = [9, 9] ∧
    euclideanDistanceSq [(0:ℚ)]
      ((((initPhase euclideanDistanceSq (fun t => t) [[(0:ℚ)],[3]] 2 4).getD
        default).centroids.getD 0 (Centroid.mean [])).val [[(0:ℚ)],[3]]) =
      0 ∧
    ((initPhase euclideanDistanceSq (fun t => t) [[(0:ℚ)],[3]] 2 4).getD
        default).upperBounds.getD 0 0 ≠ 0 ∧
    ((initPhase euclideanDistanceSq (fun t => t) [[(0:ℚ)],[3]] 2 4).getD
        default).lowerBounds = [some 9, none] := by
  decide

/-- C5: the spec's up-front validation does not exist in the code.
(a) `k > n` (here k = 3 on a 2-point dataset) makes `randomCentroid`'s
rejection sampling loop forever — the run returns no matter how much fuel it
is given, i.e. it never terminates and no typed error is produced.
(b) `k = 0` is silently coerced to `k = 3` by the constructor's `k || 3`
(identical behaviour to passing 3) instead of raising a configuration error.
(c) an empty dataset also hangs forever (in seeding, or in the first
empty-cluster reseed when k = 1) instead of failing fast. -/
theorem c5_no_validation :
    (∀ (rand : Nat → Nat) (fuel rcFuel : Nat),
      runToState euclideanDistanceSq rand [[(0:ℚ)],[1]] 3 fuel rcFuel =
        none) ∧
    (∀ (dist : List ℚ → List ℚ → ℚ) (rand : Nat → Nat)
        (dataset : List (List ℚ)) (fuel rcFuel : Nat),
      runToState dist rand dataset 0 fuel rcFuel =
        runToState dist rand dataset 3 fuel rcFuel) ∧
    (∀ (dist : List ℚ → List ℚ → ℚ) (rand : Nat → Nat)
        (kIn fuel rcFuel : Nat),
      runToState dist rand [] kIn fuel rcFuel = none) := by
  refine ⟨?_, ?_, ?_⟩
  · intro rand fuel rcFuel
    have hic : initCentroids rand [[(0:ℚ)],[1]] rcFuel
        (if (3:Nat) = 0 then 3 else 3) [] 0 = none := by
      show initCentroids rand [[(0:ℚ)],[1]] rcFuel 3 [] 0 = none
      rw [initCentroids]
      cases h1 : randomCentroid rand [[(0:ℚ)],[1]] [] 0 rcFuel with
      | none => rfl
      | some p1 =>
        obtain ⟨c1, r1⟩ := p1
        obtain ⟨-, id1, hid1, rfl⟩ := randomCentroid_some rcFuel 0 c1 r1 h1
        show initCentroids rand [[(0:ℚ)],[1]] rcFuel 2
          ([] ++ [Centroid.orig id1]) r1 = none
        rw [initCentroids]
        cases h2 : randomCentroid rand [[(0:ℚ)],[1]]
            ([] ++ [Centroid.orig id1]) r1 rcFuel with
        | none => rfl
        | some p2 =>
          obtain ⟨c2, r2⟩ := p2
          obtain ⟨hnm2, id2, hid2, rfl⟩ :=
            randomCentroid_some rcFuel r1 c2 r2 h2
          show initCentroids rand [[(0:ℚ)],[1]] rcFuel 1
            (([] ++ [Centroid.orig id1]) ++ [Centroid.orig id2]) r2 = none
          rw [initCentroids]
          have hne12 : id1 ≠ id2 := by
            intro hx
            apply hnm2
            rw [← hx]
            simp
          have hid1' : id1 < 2 := by simpa using hid1
          have hid2' : id2 < 2 := by simpa using hid2
          have hfull : ∀ id < ([[(0:ℚ)],[1]] : List (List ℚ)).length,
              Centroid.orig id ∈
                (([] ++ [Centroid.orig id1]) ++ [Centroid.orig id2]) := by
            intro id hid
            have hid' : id < 2 := by simpa using hid
            have : id = id1 ∨ id = id2 := by omega
            rcases this with rfl | rfl <;> simp
          rw [randomCentroid_none_of_full (by decide) hfull rcFuel r2]
    rw [runToState, initPhase, hic]
  · intro dist rand dataset fuel rcFuel
    rfl
  · intro dist rand kIn fuel rcFuel
    have firstdraw : ∀ (r fl : Nat) (c : Centroid) (r' : Nat),
        randomCentroid rand ([] : List (List ℚ)) [] r fl = some (c, r') →
        c = Centroid.orig 0 := by
      intro r fl c r' h
      obtain ⟨-, id, hid, rfl⟩ := randomCentroid_some fl r c r' h
      have hz : id = 0 := by
        have : id < 1 := by simpa using hid
        omega
      rw [hz]
    have seedfail : ∀ (m r : Nat) (cents : List Centroid),
        Centroid.orig 0 ∈ cents →
        initCentroids rand ([] : List (List ℚ)) rcFuel (m + 1) cents r =
          none := by
      intro m r cents hmem
      rw [initCentroids, randomCentroid_nil_none hmem rcFuel r]
    have hbig : ∀ (m : Nat),
        initCentroids rand ([] : List (List ℚ)) rcFuel (m + 2) [] 0 =
          none := by
      intro m
      rw [initCentroids]
      cases h1 : randomCentroid rand ([] : List (List ℚ)) [] 0 rcFuel with
      | none => rfl
      | some p1 =>
        obtain ⟨c1, r1⟩ := p1
        have hc1 : c1 = Centroid.orig 0 := firstdraw _ _ _ _ h1
        subst hc1
        exact seedfail m r1 ([] ++ [Centroid.orig 0]) (by simp)
    have loopB : ∀ (fl r : Nat),
        runLoop dist rand rcFuel fl
          (⟨1, [], [], [] ++ [Centroid.orig 0], [], [], [], r⟩ : State) =
          none := by
      intro fl r
      cases fl with
      | zero => rfl
      | succ n =>
        have hupd : updateNeighborClusters
            (⟨1, [], [], [] ++ [Centroid.orig 0], [], [], [], r⟩ : State) =
            (⟨1, [], [], [] ++ [Centroid.orig 0], [], [], [[]], r⟩ :
              State) := rfl
        have hcp : centroidPass rand ([] : List (List ℚ)) ([] : List Nat)
            rcFuel (List.range 1) ([] ++ [Centroid.orig 0]) r false =
            none := by
          show centroidPass rand ([] : List (List ℚ)) ([] : List Nat)
            rcFuel [0] ([] ++ [Centroid.orig 0]) r false = none
          rw [centroidPass]
          have hcnt : ¬ (0 <
              (sumCount ([] : List (List ℚ)) ([] : List Nat) 0).2) := by
            decide
          rw [if_neg hcnt]
          rw [randomCentroid_nil_none (by simp) rcFuel r]
        have hit : iterate dist rand rcFuel
            (⟨1, [], [], [] ++ [Centroid.orig 0], [], [], [], r⟩ : State) =
            none := by
          rw [iterate, hupd]
          dsimp only
          rw [hcp]
        rw [runLoop, hit]
    match kIn with
    | 0 =>
      rw [runToState, initPhase]
      have h3 : initCentroids rand ([] : List (List ℚ)) rcFuel
          (if (0:Nat) = 0 then 3 else 0) [] 0 = none := hbig 1
      rw [h3]
    | 1 =>
      rw [runToState]
      cases h0 : initPhase dist rand ([] : List (List ℚ)) 1 rcFuel with
      | none => rfl
      | some st0 =>
        rw [initPhase] at h0
        cases h1 : initCentroids rand ([] : List (List ℚ)) rcFuel
            (if (1:Nat) = 0 then 3 else 1) [] 0 with
        | none => rw [h1] at h0; cases h0
        | some p =>
          rw [h1] at h0
          obtain ⟨cents, r⟩ := p
          have hp : cents = [] ++ [Centroid.orig 0] := by
            have h1' : initCentroids rand ([] : List (List ℚ)) rcFuel 1 [] 0 =
                some (cents, r) := h1
            rw [initCentroids] at h1'
            cases h2 : randomCentroid rand ([] : List (List ℚ)) [] 0
                rcFuel with
            | none =>
              rw [h2] at h1'
              exact Option.noConfusion h1'
            | some q =>
              obtain ⟨c1, r1⟩ := q
              rw [h2] at h1'
              have hc1 : c1 = Centroid.orig 0 := firstdraw _ _ _ _ h2
              subst hc1
              have h1'' : some ((([] ++ [Centroid.orig 0]) : List Centroid),
                  r1) = some (cents, r) := h1'
              cases h1''
              rfl
          subst hp
          cases h0
          exact loopB fuel r
    | (m + 2) =>
      rw [runToState, initPhase]
      have h3 : initCentroids rand ([] : List (List ℚ)) rcFuel
          (if m + 2 = 0 then 3 else m + 2) [] 0 = none := hbig m
      rw [h3]

/-- C6: the reseed mechanism itself works (the empty cluster's centroid is
replaced by a fresh random point and a change is marked), but the run does
NOT continue to convergence: on [[0],[0],[1]] with k = 2 and seeds at
indices 0 and 1 (both equal to [0]), every point lands in cluster 0, cluster
1 stays empty forever, every iteration reseeds it with `change = true`, and
`run` never terminates (it returns nothing for every amount of fuel). -/
theorem c6_empty_cluster_never_converges :
    (∀ fuel, runToState euclideanDistanceSq (fun t => t) [[(0:ℚ)],[0],[1]] 2
        fuel 5 = none) ∧
    ((iterate euclideanDistanceSq (fun t => t) 5
        ((initPhase euclideanDistanceSq (fun t => t) [[(0:ℚ)],[0],[1]] 2
          5).getD default)).getD default).2 = true ∧
    ((iterate euclideanDistanceSq (fun t => t) 5
        ((initPhase euclideanDistanceSq (fun t => t) [[(0:ℚ)],[0],[1]] 2
          5).getD default)).getD default).1.centroids.getD 1
        (Centroid.mean []) = Centroid.orig 2 ∧
    ((initPhase euclideanDistanceSq (fun t => t) [[(0:ℚ)],[0],[1]] 2
        5).getD default).centroids.getD 1 (Centroid.mean []) =
      Centroid.orig 1 := by
  refine ⟨?_, by decide, by decide, by decide⟩
  intro fuel
  have h0 : initPhase euclideanDistanceSq (fun t => t) [[(0:ℚ)],[0],[1]] 2
      5 = some ((initPhase euclideanDistanceSq (fun t => t)
        [[(0:ℚ)],[0],[1]] 2 5).getD default) := by decide
  rw [runToState, h0]
  exact runLoop_c6_none fuel _ (by decide) (by decide) (by decide) (by decide)

/-- C7 counterexample: for k = 1 on [[0],[2]] the run does NOT converge on
the first iteration (one unit of loop fuel is not enough, because the
centroid moves on iteration one and `change` is set; two are), and the final
centroid is the 10-entry padded vector [1,0,…,0], not the dataset-dimension
mean [1]. -/
theorem c7_counterexample :
    runToState euclideanDistanceSq (fun t => t) [[(0:ℚ)],[2]] 1 1 4 =
      none ∧
    (runToState euclideanDistanceSq (fun t => t) [[(0:ℚ)],[2]] 1 2
      4).isSome = true ∧
    ((runToState euclideanDistanceSq (fun t => t) [[(0:ℚ)],[2]] 1 2 4).getD
        default).centroids.map (Centroid.val [[(0:ℚ)],[2]]) ≠
      [[(1:ℚ)]] := by
  decide

/-- C7 amended: for k = 1 and a non-empty dataset of dimension at most
`maxDim` (beyond that the source writes `NaN` into `mean[dim]` for
`dim ≥ maxDim` and `arraysEqual` then fails forever, so the loop never
converges — outside this model's regime, hence the hypothesis, exactly as
in C10), whenever initialisation succeeds the loop converges within TWO
iterations (any fuel ≥ 2 suffices), no point is ever reassigned (the
assignment stays all-zero), and the single final centroid is the
`clusterMean` of all points — the `maxDim`-padded mean vector, not the
dataset-dimension mean. -/
theorem c7_k1_two_iterations (dist : List ℚ → List ℚ → ℚ)
    (rand : Nat → Nat) (dataset : List (List ℚ)) (fuel rcFuel : Nat)
    (hne : dataset ≠ []) (_hdim : ∀ p ∈ dataset, p.length ≤ maxDim)
    (hfuel : 2 ≤ fuel)
    (hinit : (initPhase dist rand dataset 1 rcFuel).isSome = true) :
    (runLoop dist rand rcFuel fuel
        ((initPhase dist rand dataset 1 rcFuel).getD default)).isSome =
      true ∧
    ((runLoop dist rand rcFuel fuel
        ((initPhase dist rand dataset 1 rcFuel).getD
          default)).getD default).assignments =
      List.replicate dataset.length 0 ∧
    ((runLoop dist rand rcFuel fuel
        ((initPhase dist rand dataset 1 rcFuel).getD
          default)).getD default).centroids.map (Centroid.val dataset) =
      [clusterMean dataset (List.replicate dataset.length 0) 0] := by
  cases h0 : initPhase dist rand dataset 1 rcFuel with
  | none => rw [h0] at hinit; simp at hinit
  | some st0 =>
    simp only [Option.getD_some]
    obtain ⟨hnc0, hds0, hk0, hkpos, hclen, hassign⟩ := initPhase_some st0 h0
    have hk1 : st0.k = 1 := by simpa using hk0
    have hclen1 : st0.centroids.length = 1 := by rw [hclen, hk1]
    obtain ⟨c, hc⟩ := List.length_eq_one.mp hclen1
    have hassign' : st0.assignments =
        List.replicate st0.dataset.length 0 := by
      rw [hassign, hc]
      simp only [List.map_cons, List.map_nil]
      rw [exhaustiveAssignments_singleton, hds0]
    have hn0 : 0 < st0.dataset.length := by
      rw [hds0]; exact List.length_pos.mpr hne
    obtain ⟨m, rfl⟩ : ∃ m, fuel = m + 2 := ⟨fuel - 2, by omega⟩
    cases hit1 : iterate dist rand rcFuel st0 with
    | none =>
      have hs := @iterate_k1_isSome dist rand rcFuel st0 c hk1 hnc0
        hassign' hn0 hc
      rw [hit1] at hs
      simp at hs
    | some pr =>
      obtain ⟨st1, ch1⟩ := pr
      obtain ⟨hch1, hcent1, ha1, hnc1, hk1', hds1⟩ :=
        iterate_k1_spec hk1 hnc0 hassign' hn0 hc st1 ch1 hit1
      by_cases he : clusterMean st0.dataset st0.assignments 0 =
          c.val st0.dataset
      · have hch1f : ch1 = false := by rw [hch1]; simp [he]
        subst hch1f
        have hrun : runLoop dist rand rcFuel (m + 2) st0 = some st1 := by
          rw [show (m + 2 : Nat) = (m + 1) + 1 from rfl,
            runLoop_step (m + 1) st0, hit1]
          rfl
        rw [hrun, Option.getD_some]
        refine ⟨rfl, ?_, ?_⟩
        · rw [ha1, hassign', hds0]
        · rw [hcent1, if_pos he]
          simp only [List.map_cons, List.map_nil]
          have he2 : Centroid.val dataset c =
              clusterMean dataset (List.replicate dataset.length 0) 0 := by
            rw [← hds0, ← hassign']
            exact he.symm
          rw [he2]
      · have hch1t : ch1 = true := by rw [hch1]; simp [he]
        subst hch1t
        have hk1b : st1.k = 1 := by rw [hk1', hk1]
        have ha1b : st1.assignments =
            List.replicate st1.dataset.length 0 := by
          rw [ha1, hds1, hassign']
        have hn1 : 0 < st1.dataset.length := by rw [hds1]; exact hn0
        have hc1 : st1.centroids =
            [Centroid.mean (clusterMean st0.dataset st0.assignments 0)] := by
          rw [hcent1, if_neg he]
        cases hit2 : iterate dist rand rcFuel st1 with
        | none =>
          have hs := @iterate_k1_isSome dist rand rcFuel st1
            (Centroid.mean (clusterMean st0.dataset st0.assignments 0))
            hk1b hnc1 ha1b hn1 hc1
          rw [hit2] at hs
          simp at hs
        | some pr2 =>
          obtain ⟨st2, ch2⟩ := pr2
          obtain ⟨hch2, hcent2, ha2, hnc2, hk2, hds2⟩ :=
            iterate_k1_spec hk1b hnc1 ha1b hn1 hc1 st2 ch2 hit2
          have he2 : clusterMean st1.dataset st1.assignments 0 =
              (Centroid.mean (clusterMean st0.dataset
                st0.assignments 0)).val st1.dataset := by
            show clusterMean st1.dataset st1.assignments 0 =
              clusterMean st0.dataset st0.assignments 0
            rw [hds1, ha1]
          have hch2f : ch2 = false := by rw [hch2]; simp [he2]
          subst hch2f
          have hrun : runLoop dist rand rcFuel (m + 2) st0 = some st2 := by
            rw [show (m + 2 : Nat) = (m + 1) + 1 from rfl,
              runLoop_step (m + 1) st0, hit1]
            show runLoop dist rand rcFuel (m + 1) st1 = some st2
            rw [runLoop_step m st1, hit2]
            rfl
          rw [hrun, Option.getD_some]
          refine ⟨rfl, ?_, ?_⟩
          · rw [ha2, ha1, hassign', hds0]
          · rw [hcent2, if_pos he2]
            simp only [List.map_cons, List.map_nil, Centroid.val]
            rw [hassign', hds0]

/-- C7 amended witness: the two-point singleton run satisfies the amended
statement with fuel 2. -/
theorem c7_k1_two_iterations_witness :
    (([[(0:ℚ)],[2]] : List (List ℚ)) ≠ []) ∧
    (∀ p ∈ ([[(0:ℚ)],[2]] : List (List ℚ)), p.length ≤ maxDim) ∧ (2 ≤ 2) ∧
    ((initPhase euclideanDistanceSq (fun t => t) [[(0:ℚ)],[2]] 1 4).isSome =
      true) ∧
    ((runLoop euclideanDistanceSq (fun t => t) 4 2
        ((initPhase euclideanDistanceSq (fun t => t) [[(0:ℚ)],[2]] 1
          4).getD default)).isSome = true ∧
    ((runLoop euclideanDistanceSq (fun t => t) 4 2
        ((initPhase euclideanDistanceSq (fun t => t) [[(0:ℚ)],[2]] 1
          4).getD default)).getD default).assignments =
      List.replicate ([[(0:ℚ)],[2]] : List (List ℚ)).length 0 ∧
    ((runLoop euclideanDistanceSq (fun t => t) 4 2
        ((initPhase euclideanDistanceSq (fun t => t) [[(0:ℚ)],[2]] 1
          4).getD default)).getD default).centroids.map
        (Centroid.val [[(0:ℚ)],[2]]) =
      [clusterMean [[(0:ℚ)],[2]]
        (List.replicate ([[(0:ℚ)],[2]] : List (List ℚ)).length 0) 0]) :=
  ⟨by decide, by decide, by decide, by decide,
    c7_k1_two_iterations euclideanDistanceSq (fun t => t) [[(0:ℚ)],[2]] 2 4
      (by decide) (by decide) (by decide) (by decide)⟩

/-- C8 counterexample: on [[0],[1],[-50]] with k = 2 and seeds 0, 1, after
the first loop iteration (a genuine iteration boundary — the change flag is
set, so the loop continues) point 0's upper bound is 1 while the true
distance to its assigned centroid (the mean -25) is 625: the bound is
strictly BELOW the true distance, so it is stale and the claimed `≥`
invariant fails, and it was not recomputed to the exact current distance. -/
theorem c8_counterexample :
    (iterate euclideanDistanceSq (fun t => t) 4
        ((initPhase euclideanDistanceSq (fun t => t) [[(0:ℚ)],[1],[-50]] 2
          4).getD default)).isSome = true ∧
    ((iterate euclideanDistanceSq (fun t => t) 4
        ((initPhase euclideanDistanceSq (fun t => t) [[(0:ℚ)],[1],[-50]] 2
          4).getD default)).getD default).2 = true ∧
    ((iterate euclideanDistanceSq (fun t => t) 4
        ((initPhase euclideanDistanceSq (fun t => t) [[(0:ℚ)],[1],[-50]] 2
          4).getD default)).getD default).1.upperBounds.getD 0 0 <
      dcur euclideanDistanceSq [[(0:ℚ)],[1],[-50]]
        ((iterate euclideanDistanceSq (fun t => t) 4
          ((initPhase euclideanDistanceSq (fun t => t) [[(0:ℚ)],[1],[-50]]
            2 4).getD default)).getD default).1.centroids
        ((iterate euclideanDistanceSq (fun t => t) 4
          ((initPhase euclideanDistanceSq (fun t => t) [[(0:ℚ)],[1],[-50]]
            2 4).getD default)).getD default).1.assignments 0 := by
  decide

/-- C8 amended: over a reachable state (whose neighbor table is empty — see
C2), one bound-update pass leaves the assignments, the lower bounds and the
change flag untouched and replaces each `upperBounds[i]` by the MINIMUM of
its previous value and the exact current distance.  Consequently at an
iteration boundary the bound is ≤ (not ≥) the true distance: it is updated
only when it strictly decreases, and keeps its stale smaller value when the
centroid moved away. -/
theorem c8_upper_bound_min_rule (dist : List ℚ → List ℚ → ℚ)
    (dataset : List (List ℚ)) (cents : List Centroid) (a : List Nat)
    (ub : List ℚ) (lb : List (Option ℚ)) (ch : Bool) (i : Nat)
    (hub : ub.length = dataset.length) (hi : i < dataset.length) :
    (boundPassAll dist dataset cents [] (List.range dataset.length) a ub lb
      ch).1 = a ∧
    (boundPassAll dist dataset cents [] (List.range dataset.length) a ub lb
      ch).2.2.1 = lb ∧
    (boundPassAll dist dataset cents [] (List.range dataset.length) a ub lb
      ch).2.2.2 = ch ∧
    (boundPassAll dist dataset cents [] (List.range dataset.length) a ub lb
        ch).2.1.getD i 0 =
      (if dcur dist dataset cents a i < ub.getD i 0
       then dcur dist dataset cents a i else ub.getD i 0) ∧
    (boundPassAll dist dataset cents [] (List.range dataset.length) a ub lb
        ch).2.1.getD i 0 ≤ dcur dist dataset cents a i := by
  obtain ⟨p1, p2, p3⟩ :=
    @boundPassAll_nil_proj dist dataset cents (List.range dataset.length)
      a ub lb ch
  have hmem : i ∈ List.range dataset.length := List.mem_range.mpr hi
  have hnd := List.nodup_range dataset.length
  have hlt : ∀ j ∈ List.range dataset.length, j < ub.length := by
    intro j hj
    rw [hub]
    exact List.mem_range.mp hj
  have h4 := @boundPassAll_nil_mem dist dataset cents i
    (List.range dataset.length) a ub lb ch hnd hlt hmem
  refine ⟨p1, p2, p3, h4, ?_⟩
  rw [h4]
  split
  · exact le_refl _
  · rename_i hno
    exact le_of_not_lt hno

/-- C8 amended witness: a concrete pass instance. -/
theorem c8_upper_bound_min_rule_witness :
    (([(5:ℚ), 7] : List ℚ).length =
      ([[(0:ℚ)],[1]] : List (List ℚ)).length) ∧
    ((0:Nat) < ([[(0:ℚ)],[1]] : List (List ℚ)).length) ∧
    ((boundPassAll euclideanDistanceSq [[(0:ℚ)],[1]] [Centroid.orig 0]
        [] (List.range ([[(0:ℚ)],[1]] : List (List ℚ)).length) [0, 0]
        [(5:ℚ), 7] [none, none] false).1 = [0, 0] ∧
    (boundPassAll euclideanDistanceSq [[(0:ℚ)],[1]] [Centroid.orig 0]
        [] (List.range ([[(0:ℚ)],[1]] : List (List ℚ)).length) [0, 0]
        [(5:ℚ), 7] [none, none] false).2.2.1 = [none, none] ∧
    (boundPassAll euclideanDistanceSq [[(0:ℚ)],[1]] [Centroid.orig 0]
        [] (List.range ([[(0:ℚ)],[1]] : List (List ℚ)).length) [0, 0]
        [(5:ℚ), 7] [none, none] false).2.2.2 = false ∧
    (boundPassAll euclideanDistanceSq [[(0:ℚ)],[1]] [Centroid.orig 0]
        [] (List.range ([[(0:ℚ)],[1]] : List (List ℚ)).length) [0, 0]
        [(5:ℚ), 7] [none, none] false).2.1.getD 0 0 =
      (if dcur euclideanDistanceSq [[(0:ℚ)],[1]] [Centroid.orig 0] [0, 0]
          0 < ([(5:ℚ), 7] : List ℚ).getD 0 0
       then dcur euclideanDistanceSq [[(0:ℚ)],[1]] [Centroid.orig 0] [0, 0]
          0
       else ([(5:ℚ), 7] : List ℚ).getD 0 0) ∧
    (boundPassAll euclideanDistanceSq [[(0:ℚ)],[1]] [Centroid.orig 0]
        [] (List.range ([[(0:ℚ)],[1]] : List (List ℚ)).length) [0, 0]
        [(5:ℚ), 7] [none, none] false).2.1.getD 0 0 ≤
      dcur euclideanDistanceSq [[(0:ℚ)],[1]] [Centroid.orig 0] [0, 0] 0) :=
  ⟨by decide, by decide,
    c8_upper_bound_min_rule euclideanDistanceSq [[(0:ℚ)],[1]]
      [Centroid.orig 0] [0, 0] [(5:ℚ), 7] [none, none] false 0 (by decide)
      (by decide)⟩

/-- C9 counterexample: for k = 2 and assignments [1,1] (only cluster 1 ever
occupied), `getClusters` returns `[hole, [0,1]]`: the unoccupied id 0 is a
hole at its literal position, not omitted; the result has length exactly
k = 2, and it is not the insertion-order collection `[[0,1]]` the claim
describes. -/
theorem c9_counterexample :
    getClusters 2 [1, 1] = [none, some [0, 1]] ∧
    (getClusters 2 [1, 1]).length = 2 ∧
    getClusters 2 [1, 1] ≠ [some [0, 1]] := by
  decide

/-- C9 amended: the output of `getClusters` always has length exactly `k`
and is keyed by the LITERAL cluster id: entry `c` is the ascending list of
point indices assigned to `c`, and a cluster id that never receives a point
stays a hole (`none`) in place rather than being omitted. -/
theorem c9_clusters_by_literal_id (k : Nat) (as : List Nat) :
    (getClusters k as).length = k ∧
    ∀ c, c < k →
      (getClusters k as).getD c none =
        (if occIdx c as 0 = [] then none else some (occIdx c as 0)) := by
  constructor
  · rw [getClusters, getClustersGo_length, List.length_replicate]
  · intro c hc
    have hcl : c < (List.replicate k (none : Option (List Nat))).length := by
      rw [List.length_replicate]; exact hc
    rw [getClusters, getClustersGo_getD as _ 0 c hcl, getD_replicate]
    by_cases hocc : occIdx c as 0 = []
    · rw [if_pos hocc, if_pos hocc]
    · rw [if_neg hocc, if_neg hocc]
      rw [Option.getD_none, List.nil_append]

/-- C9 amended witness. -/
theorem c9_clusters_by_literal_id_witness :
    (getClusters 2 [1, 1]).length = 2 ∧ ((1:Nat) < 2) ∧
    (getClusters 2 [1, 1]).getD 1 none = some [0, 1] :=
  ⟨(c9_clusters_by_literal_id 2 [1, 1]).1, by decide, by
    have h := (c9_clusters_by_literal_id 2 [1, 1]).2 1 (by decide)
    rw [h]
    decide⟩

/-- C10: after a centroid-recompute pass over clusters `0..k-1`, every
cluster with at least one member (on a dataset of uniform dimension
`d ≤ maxDim = 10`) holds a centroid of length exactly `maxDim`: its first
`d` entries are the coordinate-wise mean of the cluster's points and its
entries `d..maxDim-1` are `0` — so for `d ≠ 10` a recomputed centroid never
has the dataset's dimension. -/
theorem c10_recomputed_centroid_padded (rand : Nat → Nat)
    (dataset : List (List ℚ)) (assignments : List Nat)
    (rcFuel k rctr : Nat) (cents : List Centroid) (ch : Bool) (d cid : Nat)
    (hdim : ∀ p ∈ dataset, p.length = d) (hd : d ≤ maxDim)
    (hcid : cid < k) (hlen : cents.length = k)
    (hcnt : 0 < (sumCount dataset assignments cid).2)
    (hpass : (centroidPass rand dataset assignments rcFuel (List.range k)
        cents rctr ch).isSome = true) :
    ((((centroidPass rand dataset assignments rcFuel (List.range k) cents
        rctr ch).getD default).1.getD cid (Centroid.mean [])).val
        dataset).length = maxDim ∧
    ∀ t, t < maxDim →
      ((((centroidPass rand dataset assignments rcFuel (List.range k) cents
          rctr ch).getD default).1.getD cid (Centroid.mean [])).val
          dataset).getD t 0 =
        (if t < d then
          ((assignedPoints cid dataset assignments).map
            (fun p => p.getD t 0)).sum /
            (((assignedPoints cid dataset assignments).length : Nat) : ℚ)
         else 0) := by
  cases hp : centroidPass rand dataset assignments rcFuel (List.range k)
      cents rctr ch with
  | none => rw [hp] at hpass; simp at hpass
  | some out =>
    simp only [Option.getD_some]
    have hval := centroidPass_occupied (List.range k) cents rctr ch out
      (List.nodup_range k)
      (fun j hj => by rw [hlen]; exact List.mem_range.mp hj)
      hp cid (List.mem_range.mpr hcid) hcnt
    rw [hval]
    obtain ⟨hL, hT⟩ := @clusterMean_spec dataset assignments cid d hdim hd
    exact ⟨hL, hT⟩

/-- C10 witness: a single two-dimensional point in its own cluster. -/
theorem c10_recomputed_centroid_padded_witness :
    (∀ p ∈ ([[(1:ℚ), 2]] : List (List ℚ)), p.length = 2) ∧ (2 ≤ maxDim) ∧
    ((0:Nat) < 1) ∧ (([Centroid.orig 0] : List Centroid).length = 1) ∧
    (0 < (sumCount [[(1:ℚ), 2]] [0] 0).2) ∧
    ((centroidPass (fun t => t) [[(1:ℚ), 2]] [0] 1 (List.range 1)
        [Centroid.orig 0] 0 false).isSome = true) ∧
    (((((centroidPass (fun t => t) [[(1:ℚ), 2]] [0] 1 (List.range 1)
        [Centroid.orig 0] 0 false).getD default).1.getD 0
        (Centroid.mean [])).val [[(1:ℚ), 2]]).length = maxDim ∧
    ∀ t, t < maxDim →
      ((((centroidPass (fun t => t) [[(1:ℚ), 2]] [0] 1 (List.range 1)
          [Centroid.orig 0] 0 false).getD default).1.getD 0
          (Centroid.mean [])).val [[(1:ℚ), 2]]).getD t 0 =
        (if t < 2 then
          ((assignedPoints 0 [[(1:ℚ), 2]] [0]).map
            (fun p => p.getD t 0)).sum /
            (((assignedPoints 0 [[(1:ℚ), 2]] [0]).length : Nat) : ℚ)
         else 0)) :=
  ⟨by decide, by decide, by decide, by decide, by decide, by decide,
    c10_recomputed_centroid_padded (fun t => t) [[(1:ℚ), 2]] [0] 1 1 0
      [Centroid.orig 0] false 2 0 (by decide) (by decide) (by decide)
      (by decide) (by decide) (by decide)⟩
